import Mathlib

/-!
Verification of the Ticket Routing & Assignment Engine
(`Backend/src/tickets/classifier/classifier.py` and `config.py`).

The engine keeps three fixed agents, each with a workload list bounded by a
shared capacity, three FCFS priority queues holding ids of waiting tickets,
and a ticket store keyed by id.  `create_ticket` routes a new ticket either
to an agent or into the queue of its priority; `close_ticket` marks a ticket
closed, frees its agent slot when it was assigned, and then drains the
queues; `process_queues` walks the queues high → medium → low in insertion
order and assigns every ticket for which `find_available_agent` succeeds.

The embedding below is a direct translation of the Python source: enumerated
string values become inductive types, the `Dict[str, List[str]]` of agent
workloads becomes a three-field structure, the three `deque`s become lists,
and the ticket `Dict[str, Ticket]` becomes an association list whose update
semantics (replace in place, append when new) mirror a Python dict.  The
neural-network classifier is advisory metadata only; its output is passed to
`create_ticket` as an explicit parameter (`none` models "no model loaded")
and is stored on the ticket without ever being read by routing.
-/

/-- Ticket priority, the values of `PRIORITY_LEVELS` in `config.py`. -/
inductive Priority
  | low
  | medium
  | high
deriving DecidableEq, Repr

/-- Ticket type, the values of `TICKET_TYPES` in `config.py`. -/
inductive TicketType
  | software
  | hardware
  | network
deriving DecidableEq, Repr

/-- Ticket status, the values of `TICKET_STATUS` in `config.py`. -/
inductive Status
  | statusOpen
  | pending
  | closed
deriving DecidableEq, Repr

/-- The three fixed agents, the keys of `AGENT_IDS` in `config.py`. -/
inductive AgentName
  | agent1
  | agent2
  | agent3
deriving DecidableEq, Repr

open Priority TicketType Status AgentName

/-- `AGENT_IDS` from `config.py`: stable external identifier of each agent. -/
def AGENT_IDS : AgentName → String
  | agent1 => "692479b918668dee67209282"
  | agent2 => "692a056cfad7d194cd3f0992"
  | agent3 => "69438f79c1af7ec03ff7fed0"

/-- `TYPE_TO_PRIMARY_AGENT` from `config.py`. -/
def TYPE_TO_PRIMARY_AGENT : TicketType → AgentName
  | software => agent1
  | hardware => agent2
  | network => agent3

/-- `SECONDARY_ASSIGNMENTS` from `config.py`; pairs absent from the Python
dict (every `high` key) give `[]`, matching `dict.get(key, [])`. -/
def SECONDARY_ASSIGNMENTS : Priority → TicketType → List AgentName
  | medium, network => [agent3, agent1]
  | medium, software => [agent1, agent2]
  | medium, hardware => [agent2, agent3]
  | low, hardware => [agent2, agent1]
  | low, network => [agent3, agent2]
  | low, software => [agent1, agent3]
  | high, _ => []

/-- `MAX_TICKETS_PER_AGENT` from `config.py`. -/
def MAX_TICKETS_PER_AGENT : Nat := 5

/-- The iteration order of the `self.agent_tickets` dict literal in
`TicketClassifier.__init__` (Python dicts iterate in insertion order). -/
def agentOrder : List AgentName := [agent1, agent2, agent3]

/-- The `Ticket` dataclass.  `created_at` (wall-clock time) is not modelled;
`neural_network_prediction` and `prediction_confidence` are the advisory
classifier outputs, stored but never read by routing. -/
structure Ticket where
  id : String
  priority : Priority
  ticket_type : TicketType
  status : Status := statusOpen
  assigned_agent : Option AgentName := none
  assigned_agent_id : Option String := none
  neural_network_prediction : Option String := none
  prediction_confidence : Option ℚ := none
deriving DecidableEq, Repr

/-- The `self.agent_tickets` dict: one workload list per agent. -/
structure Workloads where
  a1 : List String
  a2 : List String
  a3 : List String
deriving DecidableEq, Repr

def Workloads.get (w : Workloads) : AgentName → List String
  | agent1 => w.a1
  | agent2 => w.a2
  | agent3 => w.a3

def Workloads.set (w : Workloads) : AgentName → List String → Workloads
  | agent1, l => { w with a1 := l }
  | agent2, l => { w with a2 := l }
  | agent3, l => { w with a3 := l }

/-- The ticket store `self.tickets : Dict[str, Ticket]` as an association
list.  `storeLookup` is dict indexing, `storeSet` is dict assignment
(replace the existing entry in place, append a new entry at the end). -/
def storeLookup (m : List (String × Ticket)) (k : String) : Option Ticket :=
  (m.find? (fun p => p.1 = k)).map Prod.snd

def storeSet (m : List (String × Ticket)) (k : String) (v : Ticket) :
    List (String × Ticket) :=
  if m.any (fun p => p.1 = k) then
    m.map (fun p => if p.1 = k then (k, v) else p)
  else
    m ++ [(k, v)]

/-- In-place mutation of the `Ticket` object stored under `k` (Python
mutates the dataclass instance that the dict points to). -/
def storeUpdate (m : List (String × Ticket)) (k : String) (f : Ticket → Ticket) :
    List (String × Ticket) :=
  m.map (fun p => if p.1 = k then (p.1, f p.2) else p)

/-- The mutable state of a `TicketClassifier` instance: agent workloads,
the three FCFS priority queues, and the ticket store.  (`self.nn` and
`self.model_loaded` are advisory-only; see `create_ticket`.) -/
structure TicketClassifier where
  agent_tickets : Workloads
  high_priority_queue : List String
  medium_priority_queue : List String
  low_priority_queue : List String
  tickets : List (String × Ticket)
deriving DecidableEq, Repr

/-- The state built by `TicketClassifier.__init__`. -/
def initState : TicketClassifier :=
  { agent_tickets := ⟨[], [], []⟩
    high_priority_queue := []
    medium_priority_queue := []
    low_priority_queue := []
    tickets := [] }

namespace TicketClassifier

/-- `get_agent_load`. -/
def get_agent_load (s : TicketClassifier) (agent : AgentName) : Nat :=
  (s.agent_tickets.get agent).length

/-- `is_agent_available`. -/
def is_agent_available (s : TicketClassifier) (agent : AgentName) : Bool :=
  s.get_agent_load agent < MAX_TICKETS_PER_AGENT

/-- `_get_queue_for_priority` (the `else` branch is the low queue). -/
def get_queue_for_priority (s : TicketClassifier) : Priority → List String
  | high => s.high_priority_queue
  | medium => s.medium_priority_queue
  | low => s.low_priority_queue

/-- `_find_available_agent`: primary specialist first; `none` for `high`
when the specialist is busy; otherwise the secondary table, then any
available agent in declared order. -/
def find_available_agent (s : TicketClassifier) (priority : Priority)
    (ticket_type : TicketType) : Option AgentName :=
  let primary := TYPE_TO_PRIMARY_AGENT ticket_type
  if s.is_agent_available primary then
    some primary
  else if priority = high then
    none
  else
    match (SECONDARY_ASSIGNMENTS priority ticket_type).find?
        (fun a => s.is_agent_available a) with
    | some a => some a
    | none => agentOrder.find? (fun a => s.is_agent_available a)

/-- Result dictionary of `create_ticket` (the routing-relevant fields). -/
structure CreateResult where
  ticket_id : String
  priority : Priority
  ticket_type : TicketType
  status : Status
  assigned_agent : Option AgentName
  assigned_agent_id : Option String
  neural_network_prediction : Option String
  prediction_confidence : Option ℚ
  queued : Bool
deriving DecidableEq, Repr

/-- `create_ticket`.  Input validation (`priority not in PRIORITY_LEVELS`,
…) is subsumed by the inductive argument types.  `nn` is the advisory
classifier output: `some (agent, confidence)` when a model is loaded,
`none` otherwise; it is only copied into metadata fields. -/
def create_ticket (s : TicketClassifier) (ticket_id : String)
    (priority : Priority) (ticket_type : TicketType)
    (nn : Option (String × ℚ)) : TicketClassifier × CreateResult :=
  let ticket : Ticket :=
    { id := ticket_id
      priority := priority
      ticket_type := ticket_type
      neural_network_prediction := nn.map Prod.fst
      prediction_confidence := nn.map Prod.snd }
  let s₁ : TicketClassifier := { s with tickets := storeSet s.tickets ticket_id ticket }
  match s₁.find_available_agent priority ticket_type with
  | some agent =>
    let ticket :=
      { ticket with
        assigned_agent := some agent
        assigned_agent_id := some (AGENT_IDS agent)
        status := pending }
    let s₂ : TicketClassifier :=
      { s₁ with
        tickets := storeSet s₁.tickets ticket_id ticket
        agent_tickets :=
          s₁.agent_tickets.set agent (s₁.agent_tickets.get agent ++ [ticket_id]) }
    (s₂,
      { ticket_id := ticket_id, priority := priority, ticket_type := ticket_type
        status := pending, assigned_agent := some agent
        assigned_agent_id := some (AGENT_IDS agent)
        neural_network_prediction := nn.map Prod.fst
        prediction_confidence := nn.map Prod.snd, queued := false })
  | none =>
    let s₂ : TicketClassifier :=
      match priority with
      | high => { s₁ with high_priority_queue := s₁.high_priority_queue ++ [ticket_id] }
      | medium => { s₁ with medium_priority_queue := s₁.medium_priority_queue ++ [ticket_id] }
      | low => { s₁ with low_priority_queue := s₁.low_priority_queue ++ [ticket_id] }
    (s₂,
      { ticket_id := ticket_id, priority := priority, ticket_type := ticket_type
        status := statusOpen, assigned_agent := none, assigned_agent_id := none
        neural_network_prediction := nn.map Prod.fst
        prediction_confidence := nn.map Prod.snd, queued := true })

/-- One entry of the `newly_assigned` result list of `_process_queues`. -/
structure AssignEntry where
  ticket_id : String
  assigned_agent : AgentName
  assigned_agent_id : String
deriving DecidableEq, Repr

/-- The loop body of `_process_queues`: look the queued id up, run
`_find_available_agent`, and on success update the ticket, append to the
agent's workload, and record the id for removal.  The Python lookup
`self.tickets[ticket_id]` is unguarded (a missing key would raise
`KeyError`); the `none` branch returns the accumulator unchanged and is
proved unreachable from reachable states in `C10_queue_ids_are_store_keys`. -/
def drainStep (acc : TicketClassifier × List String × List AssignEntry)
    (ticket_id : String) : TicketClassifier × List String × List AssignEntry :=
  let (s, toRemove, newly) := acc
  match storeLookup s.tickets ticket_id with
  | none => acc
  | some ticket =>
    match s.find_available_agent ticket.priority ticket.ticket_type with
    | some agent =>
      let s' : TicketClassifier :=
        { s with
          tickets := storeUpdate s.tickets ticket_id (fun t =>
            { t with
              assigned_agent := some agent
              assigned_agent_id := some (AGENT_IDS agent)
              status := pending })
          agent_tickets :=
            s.agent_tickets.set agent (s.agent_tickets.get agent ++ [ticket_id]) }
      (s', toRemove ++ [ticket_id],
        newly ++ [⟨ticket_id, agent, AGENT_IDS agent⟩])
    | none => acc

/-- Selector for the queue being processed by one iteration of the outer
loop of `_process_queues`. -/
inductive QSel
  | qhigh
  | qmed
  | qlow
deriving DecidableEq, Repr

def getQ (s : TicketClassifier) : QSel → List String
  | QSel.qhigh => s.high_priority_queue
  | QSel.qmed => s.medium_priority_queue
  | QSel.qlow => s.low_priority_queue

def setQ (s : TicketClassifier) : QSel → List String → TicketClassifier
  | QSel.qhigh, q => { s with high_priority_queue := q }
  | QSel.qmed, q => { s with medium_priority_queue := q }
  | QSel.qlow, q => { s with low_priority_queue := q }

/-- One iteration of the outer loop of `_process_queues`: snapshot the
queue, run the inner loop over it (`drainStep`), then remove each assigned
id from the queue (`queue.remove` deletes the first occurrence). -/
def process_one (σ : QSel) (acc : TicketClassifier × List AssignEntry) :
    TicketClassifier × List AssignEntry :=
  let (s, newly) := acc
  let q := getQ s σ
  let (s', toRemove, newly') := q.foldl drainStep (s, [], [])
  (setQ s' σ (toRemove.foldl (fun l tid => l.erase tid) q), newly ++ newly')

/-- `_process_queues`: high queue first, then medium, then low. -/
def process_queues (s : TicketClassifier) : TicketClassifier × List AssignEntry :=
  process_one QSel.qlow (process_one QSel.qmed (process_one QSel.qhigh (s, [])))

/-- Outcome of `close_ticket`: the `ValueError` raise, the early
"already closed" return, or normal closure with the freed agent and the
drain result. -/
inductive CloseOutcome
  | notFound
  | alreadyClosed
  | closedNow (freed_agent : Option AgentName) (newly_assigned : List AssignEntry)
deriving DecidableEq, Repr

/-- The mutation part of `close_ticket` before the drain: set the status to
closed and, when the ticket was assigned and its id is in that agent's
workload list, remove the first occurrence (`list.remove`). -/
def close_core (s : TicketClassifier) (ticket_id : String) (ticket : Ticket) :
    TicketClassifier :=
  let s₁ : TicketClassifier :=
    { s with tickets := storeUpdate s.tickets ticket_id (fun t => { t with status := closed }) }
  match ticket.assigned_agent with
  | some agent =>
    if ticket_id ∈ s₁.agent_tickets.get agent then
      { s₁ with
        agent_tickets :=
          s₁.agent_tickets.set agent ((s₁.agent_tickets.get agent).erase ticket_id) }
    else s₁
  | none => s₁

/-- `close_ticket`.  An unknown id raises (`notFound`, state unchanged); an
already-closed ticket returns early (`alreadyClosed`, state unchanged, no
drain); otherwise close, free the agent slot if assigned, and drain. -/
def close_ticket (s : TicketClassifier) (ticket_id : String) :
    TicketClassifier × CloseOutcome :=
  match storeLookup s.tickets ticket_id with
  | none => (s, CloseOutcome.notFound)
  | some ticket =>
    if ticket.status = closed then
      (s, CloseOutcome.alreadyClosed)
    else
      let s₁ := close_core s ticket_id ticket
      let (s₂, newly) := process_queues s₁
      (s₂, CloseOutcome.closedNow ticket.assigned_agent newly)

end TicketClassifier

/-- An operation of the engine.  `create` carries the advisory classifier
output as an explicit parameter (`none` = no model loaded). -/
inductive Op
  | create (id : String) (priority : Priority) (ticket_type : TicketType)
      (nn : Option (String × ℚ))
  | close (id : String)
  | drain
deriving DecidableEq, Repr

/-- Apply one operation, keeping only the state. -/
def applyOp (s : TicketClassifier) : Op → TicketClassifier
  | Op.create id p t nn => (s.create_ticket id p t nn).1
  | Op.close id => (s.close_ticket id).1
  | Op.drain => (TicketClassifier.process_queues s).1

/-- States reachable from a fresh `TicketClassifier` by any operation
sequence. -/
inductive Reachable : TicketClassifier → Prop
  | init : Reachable initState
  | step (s : TicketClassifier) (op : Op) :
      Reachable s → Reachable (applyOp s op)

/-- `create` with an id that is already a store key silently overwrites the
existing ticket (flagged as ambiguous in the design notes).  `OpFresh`
restricts to operation sequences whose created ids are all distinct: a
created id stays a store key forever, so freshness of each `create` id is
exactly pairwise distinctness of created ids. -/
def OpFresh (s : TicketClassifier) : Op → Prop
  | Op.create id _ _ _ => storeLookup s.tickets id = none
  | Op.close _ => True
  | Op.drain => True

/-- States reachable by operation sequences whose created ticket ids are
pairwise distinct. -/
inductive ReachableD : TicketClassifier → Prop
  | init : ReachableD initState
  | step (s : TicketClassifier) (op : Op) :
      ReachableD s → OpFresh s op → ReachableD (applyOp s op)

/-! ## Basic lemmas about the state helpers -/

namespace Workloads

theorem get_set (w : Workloads) (a b : AgentName) (l : List String) :
    (w.set a l).get b = if b = a then l else w.get b := by
  cases a <;> cases b <;> simp [Workloads.set, Workloads.get]

theorem get_set_self (w : Workloads) (a : AgentName) (l : List String) :
    (w.set a l).get a = l := by
  simp [get_set]

theorem get_set_ne (w : Workloads) (a b : AgentName) (l : List String)
    (h : b ≠ a) : (w.set a l).get b = w.get b := by
  simp [get_set, h]

end Workloads

theorem storeLookup_nil (k : String) : storeLookup [] k = none := rfl

theorem storeLookup_cons (p : String × Ticket) (m : List (String × Ticket)) (k : String) :
    storeLookup (p :: m) k = if p.1 = k then some p.2 else storeLookup m k := by
  by_cases h : p.1 = k <;> simp [storeLookup, List.find?_cons, h]

theorem storeLookup_append (m₁ m₂ : List (String × Ticket)) (k : String) :
    storeLookup (m₁ ++ m₂) k =
      (storeLookup m₁ k).orElse (fun _ => storeLookup m₂ k) := by
  induction m₁ with
  | nil => simp [storeLookup_nil, storeLookup]
  | cons p m ih =>
    by_cases h : p.1 = k <;> simp [storeLookup_cons, h, ih]


theorem storeLookup_isSome_iff_any (m : List (String × Ticket)) (k : String) :
    (storeLookup m k).isSome = m.any (fun p => p.1 = k) := by
  induction m with
  | nil => simp [storeLookup_nil]
  | cons p m ih =>
    by_cases h : p.1 = k <;> simp [storeLookup_cons, h, ih]

theorem storeLookup_storeUpdate (m : List (String × Ticket)) (k k' : String)
    (f : Ticket → Ticket) :
    storeLookup (storeUpdate m k f) k' =
      if k' = k then (storeLookup m k).map f else storeLookup m k' := by
  induction m with
  | nil => by_cases h : k' = k <;> simp [storeUpdate, storeLookup_nil, h]
  | cons p m ih =>
    rw [storeUpdate] at ih ⊢
    rw [List.map_cons]
    by_cases hpk : p.1 = k
    · rw [if_pos hpk]
      by_cases hk : k' = k
      · subst hk
        rw [storeLookup_cons, storeLookup_cons, if_pos hpk, if_pos hpk]
        simp
      · have h1 : p.1 ≠ k' := fun h => hk (h.symm.trans hpk)
        rw [storeLookup_cons, if_neg h1, if_neg hk, storeLookup_cons, if_neg h1, ih,
          if_neg hk]
    · rw [if_neg hpk]
      by_cases hpk' : p.1 = k'
      · have hk : k' ≠ k := fun h => hpk ((hpk'.trans h))
        rw [storeLookup_cons, if_pos hpk', if_neg hk, storeLookup_cons, if_pos hpk']
      · rw [storeLookup_cons, if_neg hpk', ih]
        by_cases hk : k' = k
        · rw [if_pos hk, if_pos hk, storeLookup_cons, if_neg hpk]
        · rw [if_neg hk, if_neg hk, storeLookup_cons, if_neg hpk']

theorem storeSet_of_any (m : List (String × Ticket)) (k : String) (v : Ticket)
    (h : m.any (fun p => p.1 = k)) :
    storeSet m k v = storeUpdate m k (fun _ => v) := by
  rw [storeSet, if_pos h, storeUpdate]
  apply List.map_congr_left
  intro p _
  by_cases hp : p.1 = k
  · rw [if_pos hp, if_pos hp, hp]
  · rw [if_neg hp, if_neg hp]

theorem storeLookup_storeSet (m : List (String × Ticket)) (k k' : String) (v : Ticket) :
    storeLookup (storeSet m k v) k' =
      if k' = k then some v else storeLookup m k' := by
  by_cases hmem : m.any (fun p => p.1 = k)
  · rw [storeSet_of_any m k v hmem, storeLookup_storeUpdate]
    by_cases hk : k' = k
    · rw [if_pos hk, if_pos hk]
      have hs : (storeLookup m k).isSome := by
        rw [storeLookup_isSome_iff_any]; exact hmem
      obtain ⟨t, ht⟩ := Option.isSome_iff_exists.mp hs
      rw [ht]; rfl
    · rw [if_neg hk, if_neg hk]
  · rw [storeSet, if_neg hmem, storeLookup_append]
    have hnone : storeLookup m k = none := by
      rw [← Option.not_isSome_iff_eq_none, storeLookup_isSome_iff_any]
      simpa using hmem
    by_cases hk : k' = k
    · subst hk
      rw [hnone]
      simp [storeLookup_cons, storeLookup_nil]
    · cases hretr : storeLookup m k' with
      | none =>
        have : ¬((k, v).1 = k') := fun h => hk h.symm
        simp [hretr, storeLookup_cons, storeLookup_nil, this, hk]
      | some t => simp [hretr, hk]

/-! ## Characterization of `_find_available_agent` -/

namespace TicketClassifier

/-- Availability is a pure function of the agent's load. -/
theorem avail_eq_of_load_eq (s s' : TicketClassifier) (a : AgentName)
    (h : s'.get_agent_load a = s.get_agent_load a) :
    s'.is_agent_available a = s.is_agent_available a := by
  simp [is_agent_available, h]

/-- For a high-priority ticket the routing decision is: the primary
specialist if it has spare capacity, otherwise nothing (step 2 of
`_find_available_agent` returns `None` before any fallback is tried). -/
theorem find_high_char (s : TicketClassifier) (t : TicketType) :
    s.find_available_agent high t =
      if s.is_agent_available (TYPE_TO_PRIMARY_AGENT t) then
        some (TYPE_TO_PRIMARY_AGENT t)
      else none := by
  by_cases h : s.is_agent_available (TYPE_TO_PRIMARY_AGENT t) <;>
    simp [find_available_agent, h]

/-- `_find_available_agent` only ever returns an agent with spare capacity. -/
theorem find_avail (s : TicketClassifier) (p : Priority) (t : TicketType)
    (a : AgentName) (h : s.find_available_agent p t = some a) :
    s.is_agent_available a = true := by
  unfold find_available_agent at h
  by_cases h1 : s.is_agent_available (TYPE_TO_PRIMARY_AGENT t)
  · simp [h1] at h
    exact h ▸ h1
  · by_cases hp : p = high
    · simp [h1, hp] at h
    · simp [h1, hp] at h
      cases h2 : (SECONDARY_ASSIGNMENTS p t).find? (fun a => s.is_agent_available a) with
      | some b =>
        rw [h2] at h
        cases h
        exact List.find?_some h2
      | none =>
        rw [h2] at h
        exact List.find?_some h

/-- When no agent resulted for a medium/low ticket, every agent is at
capacity (step 5 scans all agents in declared order). -/
theorem find_none_all (s : TicketClassifier) (p : Priority) (t : TicketType)
    (hp : p ≠ high) (h : s.find_available_agent p t = none) :
    ∀ a, s.is_agent_available a = false := by
  intro a
  unfold find_available_agent at h
  by_cases h1 : s.is_agent_available (TYPE_TO_PRIMARY_AGENT t)
  · simp [h1] at h
  · simp [h1, hp] at h
    cases h2 : (SECONDARY_ASSIGNMENTS p t).find? (fun a => s.is_agent_available a) with
    | some b => rw [h2] at h; cases h
    | none =>
      rw [h2] at h
      have hall := List.find?_eq_none.mp h
      have hmem : a ∈ agentOrder := by cases a <;> simp [agentOrder]
      have := hall a hmem
      simpa using this

/-- Conversely, when every agent is at capacity no agent is returned. -/
theorem find_none_of_all_unavail (s : TicketClassifier) (p : Priority)
    (t : TicketType) (h : ∀ a, s.is_agent_available a = false) :
    s.find_available_agent p t = none := by
  have hsec : (SECONDARY_ASSIGNMENTS p t).find? (fun a => s.is_agent_available a) = none :=
    List.find?_eq_none.mpr (fun a _ => by simp [h a])
  have hall : agentOrder.find? (fun a => s.is_agent_available a) = none :=
    List.find?_eq_none.mpr (fun a _ => by simp [h a])
  unfold find_available_agent
  by_cases hp : p = high <;>
    simp [h (TYPE_TO_PRIMARY_AGENT t), hp, hsec, hall]

/-- Unassignability is stable under workload growth: if no agent was
returned and every load only grew, still no agent is returned. -/
theorem find_none_mono (s s' : TicketClassifier) (p : Priority) (t : TicketType)
    (hl : ∀ a, s.get_agent_load a ≤ s'.get_agent_load a)
    (hn : s.find_available_agent p t = none) :
    s'.find_available_agent p t = none := by
  have hstep : ∀ a, s.is_agent_available a = false → s'.is_agent_available a = false := by
    intro a ha
    simp only [is_agent_available, decide_eq_false_iff_not, not_lt] at ha ⊢
    exact le_trans ha (hl a)
  by_cases hp : p = high
  · subst hp
    rw [find_high_char] at hn ⊢
    by_cases h1 : s.is_agent_available (TYPE_TO_PRIMARY_AGENT t)
    · rw [if_pos h1] at hn; cases hn
    · rw [if_neg (by simp [hstep _ (by simpa using h1)])]
  · exact find_none_of_all_unavail s' p t
      (fun a => hstep a (find_none_all s p t hp hn a))

/-- If no agent was assignable in `s` and `s'` agrees with `s` on the load
of every agent other than `X`, then at most `X` can be returned in `s'`
(used for the frame property of `close_ticket`: only the freed agent can
receive queued work). -/
theorem find_only_freed (s s' : TicketClassifier) (X : AgentName) (p : Priority)
    (t : TicketType)
    (hother : ∀ a, a ≠ X → s'.get_agent_load a = s.get_agent_load a)
    (hn : s.find_available_agent p t = none) :
    s'.find_available_agent p t = none ∨ s'.find_available_agent p t = some X := by
  cases hfind : s'.find_available_agent p t with
  | none => exact Or.inl rfl
  | some a =>
    refine Or.inr ?_
    by_cases hax : a = X
    · rw [hax]
    · exfalso
      have ha : s'.is_agent_available a = true := find_avail s' p t a hfind
      have ha' : s.is_agent_available a = true := by
        rw [← avail_eq_of_load_eq s s' a (hother a hax)]
        exact ha
      by_cases hp : p = high
      · subst hp
        rw [find_high_char] at hn hfind
        by_cases h1 : s.is_agent_available (TYPE_TO_PRIMARY_AGENT t)
        · rw [if_pos h1] at hn; cases hn
        · by_cases h2 : s'.is_agent_available (TYPE_TO_PRIMARY_AGENT t)
          · rw [if_pos h2] at hfind
            cases hfind
            by_cases hpx : TYPE_TO_PRIMARY_AGENT t = X
            · exact hax hpx
            · rw [avail_eq_of_load_eq s s' _ (hother _ hpx)] at h2
              exact h1 h2
          · rw [if_neg h2] at hfind; cases hfind
      · have := find_none_all s p t hp hn a
        rw [this] at ha'
        cases ha'

end TicketClassifier

/-! ## Priority/type preservation and drain bookkeeping -/

/-- The routing-relevant immutable part of a stored ticket: its priority and
type.  No operation of the engine ever rewrites these two fields. -/
def storePT (m : List (String × Ticket)) (k : String) : Option (Priority × TicketType) :=
  (storeLookup m k).map (fun t => (t.priority, t.ticket_type))

namespace TicketClassifier

/-- `_find_available_agent` reads nothing but the workloads. -/
theorem find_eq_of_workloads_eq (s s' : TicketClassifier) (p : Priority)
    (t : TicketType) (h : s.agent_tickets = s'.agent_tickets) :
    s.find_available_agent p t = s'.find_available_agent p t := by
  simp [find_available_agent, is_agent_available, get_agent_load, h]



/-- `drainStep` equation: the queued id is not a store key (unguarded dict
lookup would raise `KeyError`; modelled as a no-op, proved unreachable from
reachable states by the claim-10 theorem). -/
theorem drainStep_eq_missing (s : TicketClassifier) (r : List String)
    (n : List AssignEntry) (x : String) (h : storeLookup s.tickets x = none) :
    drainStep (s, r, n) x = (s, r, n) := by
  simp only [drainStep, h]

/-- `drainStep` equation: no agent available, the ticket stays in place. -/
theorem drainStep_eq_stuck (s : TicketClassifier) (r : List String)
    (n : List AssignEntry) (x : String) (tk : Ticket)
    (h : storeLookup s.tickets x = some tk)
    (h2 : s.find_available_agent tk.priority tk.ticket_type = none) :
    drainStep (s, r, n) x = (s, r, n) := by
  simp only [drainStep, h, h2]

/-- `drainStep` equation: an agent is available and the ticket is assigned. -/
theorem drainStep_eq_assign (s : TicketClassifier) (r : List String)
    (n : List AssignEntry) (x : String) (tk : Ticket) (a : AgentName)
    (h : storeLookup s.tickets x = some tk)
    (h2 : s.find_available_agent tk.priority tk.ticket_type = some a) :
    drainStep (s, r, n) x =
      ({ s with
          tickets := storeUpdate s.tickets x (fun t =>
            { t with
              assigned_agent := some a
              assigned_agent_id := some (AGENT_IDS a)
              status := pending })
          agent_tickets := s.agent_tickets.set a (s.agent_tickets.get a ++ [x]) },
        r ++ [x], n ++ [⟨x, a, AGENT_IDS a⟩]) := by
  simp only [drainStep, h, h2]

/-- One drain step never touches the three queue fields. -/
theorem drainStep_queues (acc : TicketClassifier × List String × List AssignEntry)
    (x : String) (σ : QSel) : getQ (drainStep acc x).1 σ = getQ acc.1 σ := by
  obtain ⟨s, r, n⟩ := acc
  cases h1 : storeLookup s.tickets x with
  | none => rw [drainStep_eq_missing s r n x h1]
  | some tk =>
    cases h2 : s.find_available_agent tk.priority tk.ticket_type with
    | none => rw [drainStep_eq_stuck s r n x tk h1 h2]
    | some a => rw [drainStep_eq_assign s r n x tk a h1 h2]; cases σ <;> rfl

/-- One drain step only appends to workloads: loads never shrink. -/
theorem drainStep_load_le (acc : TicketClassifier × List String × List AssignEntry)
    (x : String) (a : AgentName) :
    acc.1.get_agent_load a ≤ (drainStep acc x).1.get_agent_load a := by
  obtain ⟨s, r, n⟩ := acc
  cases h1 : storeLookup s.tickets x with
  | none => rw [drainStep_eq_missing s r n x h1]
  | some tk =>
    cases h2 : s.find_available_agent tk.priority tk.ticket_type with
    | none => rw [drainStep_eq_stuck s r n x tk h1 h2]
    | some b =>
      rw [drainStep_eq_assign s r n x tk b h1 h2]
      simp only [get_agent_load, Workloads.get_set]
      by_cases hab : a = b
      · subst hab; simp
      · simp [hab]

/-- One drain step never changes the stored priority/type of any ticket. -/
theorem drainStep_storePT (acc : TicketClassifier × List String × List AssignEntry)
    (x : String) (k : String) :
    storePT (drainStep acc x).1.tickets k = storePT acc.1.tickets k := by
  obtain ⟨s, r, n⟩ := acc
  cases h1 : storeLookup s.tickets x with
  | none => rw [drainStep_eq_missing s r n x h1]
  | some tk =>
    cases h2 : s.find_available_agent tk.priority tk.ticket_type with
    | none => rw [drainStep_eq_stuck s r n x tk h1 h2]
    | some a =>
      rw [drainStep_eq_assign s r n x tk a h1 h2]
      simp only [storePT, storeLookup_storeUpdate]
      by_cases hk : k = x
      · subst hk; simp [h1]
      · simp [hk]

/-- An `AssignEntry` respects the high-priority routing rule relative to a
ticket store: whenever the store says its ticket is high priority, the
entry's agent is the type's primary specialist. -/
def highEntryOK (m : List (String × Ticket)) (e : AssignEntry) : Prop :=
  ∀ pt : Priority × TicketType, storePT m e.ticket_id = some pt → pt.1 = high →
    e.assigned_agent = TYPE_TO_PRIMARY_AGENT pt.2

theorem drainStep_highEntryOK
    (acc : TicketClassifier × List String × List AssignEntry) (x : String)
    (hacc : ∀ e ∈ acc.2.2, highEntryOK acc.1.tickets e) :
    ∀ e ∈ (drainStep acc x).2.2, highEntryOK (drainStep acc x).1.tickets e := by
  have hPT := drainStep_storePT acc x
  obtain ⟨s, r, n⟩ := acc
  cases h1 : storeLookup s.tickets x with
  | none => rw [drainStep_eq_missing s r n x h1]; exact hacc
  | some tk =>
    cases h2 : s.find_available_agent tk.priority tk.ticket_type with
    | none => rw [drainStep_eq_stuck s r n x tk h1 h2]; exact hacc
    | some a =>
      rw [drainStep_eq_assign s r n x tk a h1 h2] at hPT ⊢
      intro e he
      simp only [List.mem_append, List.mem_singleton] at he
      rcases he with he | he
      · intro pt hpt hhigh
        exact hacc e he pt (by rw [← hPT e.ticket_id]; exact hpt) hhigh
      · subst he
        intro pt hpt hhigh
        rw [hPT] at hpt
        simp only [storePT, h1, Option.map_some'] at hpt
        cases hpt
        simp only at hhigh ⊢
        rw [hhigh] at h2
        rw [find_high_char] at h2
        by_cases hav : s.is_agent_available (TYPE_TO_PRIMARY_AGENT tk.ticket_type)
        · rw [if_pos hav] at h2; cases h2; rfl
        · rw [if_neg hav] at h2; cases h2

theorem foldl_drainStep_queues (q : List String)
    (acc : TicketClassifier × List String × List AssignEntry) (σ : QSel) :
    getQ (q.foldl drainStep acc).1 σ = getQ acc.1 σ := by
  induction q generalizing acc with
  | nil => rfl
  | cons x q ih => rw [List.foldl_cons, ih, drainStep_queues]

theorem foldl_drainStep_load_le (q : List String)
    (acc : TicketClassifier × List String × List AssignEntry) (a : AgentName) :
    acc.1.get_agent_load a ≤ (q.foldl drainStep acc).1.get_agent_load a := by
  induction q generalizing acc with
  | nil => exact le_refl _
  | cons x q ih =>
    rw [List.foldl_cons]
    exact le_trans (drainStep_load_le acc x a) (ih (drainStep acc x))

theorem foldl_drainStep_storePT (q : List String)
    (acc : TicketClassifier × List String × List AssignEntry) (k : String) :
    storePT (q.foldl drainStep acc).1.tickets k = storePT acc.1.tickets k := by
  induction q generalizing acc with
  | nil => rfl
  | cons x q ih => rw [List.foldl_cons, ih, drainStep_storePT]

theorem foldl_drainStep_highEntryOK (q : List String)
    (acc : TicketClassifier × List String × List AssignEntry)
    (hacc : ∀ e ∈ acc.2.2, highEntryOK acc.1.tickets e) :
    ∀ e ∈ (q.foldl drainStep acc).2.2,
      highEntryOK (q.foldl drainStep acc).1.tickets e := by
  induction q generalizing acc with
  | nil => exact hacc
  | cons x q ih =>
    rw [List.foldl_cons]
    exact ih (drainStep acc x) (drainStep_highEntryOK acc x hacc)

theorem process_one_tickets_eq_foldl (σ : QSel)
    (acc : TicketClassifier × List AssignEntry) :
    (process_one σ acc).1.tickets =
      ((getQ acc.1 σ).foldl drainStep (acc.1, [], [])).1.tickets := by
  obtain ⟨s, n⟩ := acc
  cases σ <;> rfl

theorem process_one_storePT (σ : QSel) (acc : TicketClassifier × List AssignEntry)
    (k : String) :
    storePT (process_one σ acc).1.tickets k = storePT acc.1.tickets k := by
  rw [process_one_tickets_eq_foldl]
  exact foldl_drainStep_storePT _ _ _

theorem process_one_highEntryOK (σ : QSel)
    (acc : TicketClassifier × List AssignEntry)
    (hacc : ∀ e ∈ acc.2, highEntryOK acc.1.tickets e) :
    ∀ e ∈ (process_one σ acc).2, highEntryOK (process_one σ acc).1.tickets e := by
  obtain ⟨s, n⟩ := acc
  intro e he
  have hfold := foldl_drainStep_highEntryOK (getQ s σ) (s, ([], []))
    (by intro e he; cases he)
  have hPT := foldl_drainStep_storePT (getQ s σ) (s, ([], []))
  have hmem : e ∈ n ∨ e ∈ ((getQ s σ).foldl drainStep (s, ([], []))).2.2 := by
    have : (process_one σ (s, n)).2 =
        n ++ ((getQ s σ).foldl drainStep (s, ([], []))).2.2 := by
      cases σ <;> rfl
    rw [this] at he
    exact List.mem_append.mp he
  have htick : (process_one σ (s, n)).1.tickets =
      ((getQ s σ).foldl drainStep (s, ([], []))).1.tickets :=
    process_one_tickets_eq_foldl σ (s, n)
  rcases hmem with h | h
  · intro pt hpt hhigh
    refine hacc e h pt ?_ hhigh
    rw [← hpt, htick]
    exact (hPT e.ticket_id).symm
  · intro pt hpt hhigh
    refine hfold e h pt ?_ hhigh
    rw [← hpt, htick]

theorem process_queues_highEntryOK (s : TicketClassifier) :
    ∀ e ∈ (process_queues s).2, highEntryOK (process_queues s).1.tickets e := by
  unfold process_queues
  apply process_one_highEntryOK
  apply process_one_highEntryOK
  apply process_one_highEntryOK
  intro e he
  cases he

theorem process_queues_storePT (s : TicketClassifier) (k : String) :
    storePT (process_queues s).1.tickets k = storePT s.tickets k := by
  unfold process_queues
  rw [process_one_storePT, process_one_storePT, process_one_storePT]

end TicketClassifier

/-! ## Branch equations for `create_ticket` and `close_ticket` -/

/-- The freshly constructed `Ticket` of `create_ticket` before routing. -/
def newTicket (ticket_id : String) (p : Priority) (t : TicketType)
    (nn : Option (String × ℚ)) : Ticket :=
  { id := ticket_id
    priority := p
    ticket_type := t
    neural_network_prediction := nn.map Prod.fst
    prediction_confidence := nn.map Prod.snd }

/-- The queue selector matching `_get_queue_for_priority`. -/
def qselOf : Priority → TicketClassifier.QSel
  | high => TicketClassifier.QSel.qhigh
  | medium => TicketClassifier.QSel.qmed
  | low => TicketClassifier.QSel.qlow

/-- A ticket with the advisory classifier fields erased. -/
def stripAdv (t : Ticket) : Ticket :=
  { t with neural_network_prediction := none, prediction_confidence := none }

namespace TicketClassifier

/-- Replacing the ticket store leaves `_find_available_agent` unchanged
(it reads only the workloads). -/
theorem find_set_tickets (s : TicketClassifier) (m : List (String × Ticket))
    (p : Priority) (t : TicketType) :
    ({ s with tickets := m } : TicketClassifier).find_available_agent p t =
      s.find_available_agent p t := rfl

/-- `create_ticket` equation: an agent is available, the ticket is assigned. -/
theorem create_ticket_eq_assigned (s : TicketClassifier) (id : String)
    (p : Priority) (t : TicketType) (nn : Option (String × ℚ)) (a : AgentName)
    (h : s.find_available_agent p t = some a) :
    s.create_ticket id p t nn =
      ({ s with
          tickets := storeSet (storeSet s.tickets id (newTicket id p t nn)) id
            { newTicket id p t nn with
              assigned_agent := some a
              assigned_agent_id := some (AGENT_IDS a)
              status := pending }
          agent_tickets := s.agent_tickets.set a (s.agent_tickets.get a ++ [id]) },
        { ticket_id := id, priority := p, ticket_type := t
          status := pending, assigned_agent := some a
          assigned_agent_id := some (AGENT_IDS a)
          neural_network_prediction := nn.map Prod.fst
          prediction_confidence := nn.map Prod.snd, queued := false }) := by
  simp only [create_ticket, newTicket, find_set_tickets, h]

/-- `create_ticket` equation: no agent available, the ticket is queued on
the queue of its priority. -/
theorem create_ticket_eq_queued (s : TicketClassifier) (id : String)
    (p : Priority) (t : TicketType) (nn : Option (String × ℚ))
    (h : s.find_available_agent p t = none) :
    s.create_ticket id p t nn =
      (setQ { s with tickets := storeSet s.tickets id (newTicket id p t nn) }
         (qselOf p)
         (getQ s (qselOf p) ++ [id]),
       { ticket_id := id, priority := p, ticket_type := t
         status := statusOpen, assigned_agent := none, assigned_agent_id := none
         neural_network_prediction := nn.map Prod.fst
         prediction_confidence := nn.map Prod.snd, queued := true }) := by
  cases p <;>
    simp only [create_ticket, newTicket, find_set_tickets, h, qselOf, setQ, getQ]

/-- `close_ticket` equation: unknown id (`ValueError`, no state change). -/
theorem close_ticket_eq_notFound (s : TicketClassifier) (id : String)
    (h : storeLookup s.tickets id = none) :
    s.close_ticket id = (s, CloseOutcome.notFound) := by
  simp only [close_ticket, h]

/-- `close_ticket` equation: already closed (early return, no drain). -/
theorem close_ticket_eq_alreadyClosed (s : TicketClassifier) (id : String)
    (tk : Ticket) (h : storeLookup s.tickets id = some tk)
    (hst : tk.status = closed) :
    s.close_ticket id = (s, CloseOutcome.alreadyClosed) := by
  simp only [close_ticket, h, hst, if_pos]

/-- `close_ticket` equation: a live ticket is closed and the queues are
drained. -/
theorem close_ticket_eq_closes (s : TicketClassifier) (id : String)
    (tk : Ticket) (h : storeLookup s.tickets id = some tk)
    (hst : tk.status ≠ closed) :
    s.close_ticket id =
      ((process_queues (close_core s id tk)).1,
        CloseOutcome.closedNow tk.assigned_agent
          (process_queues (close_core s id tk)).2) := by
  simp [close_ticket, h, hst]

end TicketClassifier

open TicketClassifier

/-! ## Claim C8: idempotence of closing -/

/-- C8: `close_ticket` on an id whose ticket is already closed returns the
"already closed" result and leaves the entire state unchanged — in
particular no queue drain runs (the `alreadyClosed` outcome is the early
return of the Python source, taken before `_process_queues` is reached). -/
theorem C8_close_already_closed_idempotent (s : TicketClassifier) (id : String)
    (tk : Ticket) (h : storeLookup s.tickets id = some tk)
    (hst : tk.status = closed) :
    s.close_ticket id = (s, CloseOutcome.alreadyClosed) :=
  close_ticket_eq_alreadyClosed s id tk h hst

/-- A one-ticket state whose only ticket has been closed. -/
def c8State : TicketClassifier :=
  applyOp (applyOp initState (Op.create "T1" high software none)) (Op.close "T1")

/-- Witness for C8 at a concrete closed ticket. -/
theorem C8_close_already_closed_idempotent_witness :
    c8State.close_ticket "T1" = (c8State, CloseOutcome.alreadyClosed) :=
  C8_close_already_closed_idempotent c8State "T1"
    { id := "T1", priority := high, ticket_type := software, status := closed
      assigned_agent := some agent1
      assigned_agent_id := some "692479b918668dee67209282" }
    (by decide) (by decide)

/-! ## Claim C9: routing never depends on the advisory classifier -/

/-- C9: two runs of `create_ticket` from the same state with different
advisory-classifier outputs (e.g. a model loaded versus no model loaded,
`nn₂ = none`) produce identical workloads, identical queues, the same
assignment outcome in the returned result, and ticket stores that agree
everywhere once the two advisory metadata fields are erased. -/
theorem C9_routing_independent_of_advisory (s : TicketClassifier) (id : String)
    (p : Priority) (t : TicketType) (nn₁ nn₂ : Option (String × ℚ)) :
    (s.create_ticket id p t nn₁).1.agent_tickets =
        (s.create_ticket id p t nn₂).1.agent_tickets ∧
    (s.create_ticket id p t nn₁).1.high_priority_queue =
        (s.create_ticket id p t nn₂).1.high_priority_queue ∧
    (s.create_ticket id p t nn₁).1.medium_priority_queue =
        (s.create_ticket id p t nn₂).1.medium_priority_queue ∧
    (s.create_ticket id p t nn₁).1.low_priority_queue =
        (s.create_ticket id p t nn₂).1.low_priority_queue ∧
    (∀ k, (storeLookup (s.create_ticket id p t nn₁).1.tickets k).map stripAdv =
        (storeLookup (s.create_ticket id p t nn₂).1.tickets k).map stripAdv) ∧
    (s.create_ticket id p t nn₁).2.assigned_agent =
        (s.create_ticket id p t nn₂).2.assigned_agent ∧
    (s.create_ticket id p t nn₁).2.assigned_agent_id =
        (s.create_ticket id p t nn₂).2.assigned_agent_id ∧
    (s.create_ticket id p t nn₁).2.status = (s.create_ticket id p t nn₂).2.status ∧
    (s.create_ticket id p t nn₁).2.queued = (s.create_ticket id p t nn₂).2.queued := by
  cases h : s.find_available_agent p t with
  | some a =>
    rw [create_ticket_eq_assigned s id p t nn₁ a h,
      create_ticket_eq_assigned s id p t nn₂ a h]
    refine ⟨rfl, rfl, rfl, rfl, ?_, rfl, rfl, rfl, rfl⟩
    intro k
    simp only [storeLookup_storeSet]
    by_cases hk : k = id
    · simp [hk, stripAdv, newTicket]
    · simp [hk]
  | none =>
    rw [create_ticket_eq_queued s id p t nn₁ h,
      create_ticket_eq_queued s id p t nn₂ h]
    have hq : ∀ k, (storeLookup
          (storeSet s.tickets id (newTicket id p t nn₁)) k).map stripAdv =
        (storeLookup (storeSet s.tickets id (newTicket id p t nn₂)) k).map stripAdv := by
      intro k
      simp only [storeLookup_storeSet]
      by_cases hk : k = id
      · simp [hk, stripAdv, newTicket]
      · simp [hk]
    cases p <;>
      exact ⟨rfl, rfl, rfl, rfl, hq, rfl, rfl, rfl, rfl⟩

/-! ## Claim C6: high-priority tickets go only to the primary specialist -/

/-- C6: (1) for a high-priority ticket, `_find_available_agent` returns
the type's primary specialist when it has spare capacity and `None`
otherwise; (2) hence `create_ticket` at high priority either queues the
ticket or assigns it to the primary specialist; (3) and every assignment
made by a queue drain for a ticket stored with high priority targets the
primary specialist of the ticket's type. -/
theorem C6_high_priority_only_primary_specialist :
    (∀ (s : TicketClassifier) (t : TicketType),
        s.find_available_agent high t =
          if s.is_agent_available (TYPE_TO_PRIMARY_AGENT t) then
            some (TYPE_TO_PRIMARY_AGENT t)
          else none) ∧
    (∀ (s : TicketClassifier) (id : String) (t : TicketType)
        (nn : Option (String × ℚ)),
        (s.create_ticket id high t nn).2.assigned_agent = none ∨
        (s.create_ticket id high t nn).2.assigned_agent =
          some (TYPE_TO_PRIMARY_AGENT t)) ∧
    (∀ (s : TicketClassifier) (e : AssignEntry) (tk : Ticket),
        e ∈ (process_queues s).2 →
        storeLookup s.tickets e.ticket_id = some tk → tk.priority = high →
        e.assigned_agent = TYPE_TO_PRIMARY_AGENT tk.ticket_type) := by
  refine ⟨find_high_char, ?_, ?_⟩
  · intro s id t nn
    cases h : s.find_available_agent high t with
    | none =>
      left
      rw [create_ticket_eq_queued s id high t nn h]
    | some a =>
      right
      rw [create_ticket_eq_assigned s id high t nn a h]
      rw [find_high_char] at h
      by_cases hav : s.is_agent_available (TYPE_TO_PRIMARY_AGENT t)
      · rw [if_pos hav] at h
        cases h
        rfl
      · rw [if_neg hav] at h
        cases h
  · intro s e tk he hl hp
    refine process_queues_highEntryOK s e he (tk.priority, tk.ticket_type) ?_ hp
    rw [process_queues_storePT]
    simp [storePT, hl]

/-- A state with one waiting high-priority software ticket and free agents. -/
def c6State : TicketClassifier :=
  { agent_tickets := ⟨[], [], []⟩
    high_priority_queue := ["H1"]
    medium_priority_queue := []
    low_priority_queue := []
    tickets := [("H1", { id := "H1", priority := high, ticket_type := software })] }

/-- Witness for C6 at a concrete drain that assigns a queued high ticket. -/
theorem C6_high_priority_only_primary_specialist_witness :
    (⟨"H1", agent1, AGENT_IDS agent1⟩ : AssignEntry).assigned_agent =
      TYPE_TO_PRIMARY_AGENT software :=
  C6_high_priority_only_primary_specialist.2.2 c6State
    ⟨"H1", agent1, AGENT_IDS agent1⟩
    { id := "H1", priority := high, ticket_type := software }
    (by decide) (by decide) rfl

/-! ## Claims C1 and C2: closing a queued ticket leaves a stale queue entry -/

/-- Five high/software tickets fill Agent 1, the sixth is queued. -/
def cexOps : List Op :=
  [Op.create "T1" high software none,
   Op.create "T2" high software none,
   Op.create "T3" high software none,
   Op.create "T4" high software none,
   Op.create "T5" high software none,
   Op.create "T6" high software none]

/-- The state after closing the queued (never assigned) ticket T6. -/
def cexS7 : TicketClassifier := applyOp (cexOps.foldl applyOp initState) (Op.close "T6")

/-- The state after additionally closing the assigned ticket T1. -/
def cexS8 : TicketClassifier := applyOp cexS7 (Op.close "T1")

/-- C1 fails on the code: after `close_ticket "T6"` on the queued,
never-assigned ticket T6, its status is closed yet its id is still in the
high priority queue — `close_ticket` removes an id from the closing
agent's workload only, never from a priority queue. -/
theorem C1_close_queued_leaves_stale_queue_entry :
    (storeLookup cexS7.tickets "T6").map Ticket.status = some closed ∧
      "T6" ∈ cexS7.high_priority_queue := by decide

/-- C2 fails on the code: T6 is closed after its closure, but the next
`close_ticket "T1"` frees Agent 1 and its queue drain re-assigns the stale
queue entry T6, moving T6 from closed back to pending — a reversal of the
documented open → pending → closed order. -/
theorem C2_closed_ticket_reverts_to_pending :
    (storeLookup cexS7.tickets "T6").map Ticket.status = some closed ∧
      cexS8 = applyOp cexS7 (Op.close "T1") ∧
      (storeLookup cexS8.tickets "T6").map Ticket.status = some pending := by
  refine ⟨by decide, rfl, by decide⟩

/-! ## Claim C3: the capacity invariant -/

/-- Every agent's workload is within the shared capacity limit. -/
def capOK (s : TicketClassifier) : Prop :=
  ∀ a, s.get_agent_load a ≤ MAX_TICKETS_PER_AGENT

namespace TicketClassifier

theorem avail_iff_lt (s : TicketClassifier) (a : AgentName) :
    s.is_agent_available a = true ↔ s.get_agent_load a < MAX_TICKETS_PER_AGENT := by
  simp [is_agent_available]

theorem capOK_init : capOK initState := by
  intro a
  cases a <;> simp [initState, get_agent_load, Workloads.get]

theorem capOK_drainStep (acc : TicketClassifier × List String × List AssignEntry)
    (x : String) (h : capOK acc.1) : capOK (drainStep acc x).1 := by
  obtain ⟨s, r, n⟩ := acc
  cases h1 : storeLookup s.tickets x with
  | none => rw [drainStep_eq_missing s r n x h1]; exact h
  | some tk =>
    cases h2 : s.find_available_agent tk.priority tk.ticket_type with
    | none => rw [drainStep_eq_stuck s r n x tk h1 h2]; exact h
    | some b =>
      rw [drainStep_eq_assign s r n x tk b h1 h2]
      intro a
      have hb : s.get_agent_load b < MAX_TICKETS_PER_AGENT :=
        (avail_iff_lt s b).mp (find_avail s tk.priority tk.ticket_type b h2)
      simp only [get_agent_load, Workloads.get_set]
      by_cases hab : a = b
      · subst hab
        simpa [get_agent_load, List.length_append] using hb
      · simp only [if_neg hab]
        exact h a

theorem capOK_foldl_drainStep (q : List String)
    (acc : TicketClassifier × List String × List AssignEntry)
    (h : capOK acc.1) : capOK (q.foldl drainStep acc).1 := by
  induction q generalizing acc with
  | nil => exact h
  | cons x q ih =>
    rw [List.foldl_cons]
    exact ih (drainStep acc x) (capOK_drainStep acc x h)

theorem setQ_agent_tickets (s : TicketClassifier) (σ : QSel) (q : List String) :
    (setQ s σ q).agent_tickets = s.agent_tickets := by
  cases σ <;> rfl

theorem setQ_load (s : TicketClassifier) (σ : QSel) (q : List String)
    (a : AgentName) : (setQ s σ q).get_agent_load a = s.get_agent_load a := by
  simp [get_agent_load, setQ_agent_tickets]

theorem process_one_state_eq (σ : QSel) (s : TicketClassifier)
    (n : List AssignEntry) :
    (process_one σ (s, n)).1 =
      setQ ((getQ s σ).foldl drainStep (s, ([], []))).1 σ
        ((((getQ s σ).foldl drainStep (s, ([], []))).2.1).foldl
          (fun l tid => l.erase tid) (getQ s σ)) := by
  cases σ <;> rfl

theorem capOK_process_one (σ : QSel) (acc : TicketClassifier × List AssignEntry)
    (h : capOK acc.1) : capOK (process_one σ acc).1 := by
  obtain ⟨s, n⟩ := acc
  rw [process_one_state_eq]
  intro a
  rw [setQ_load]
  exact capOK_foldl_drainStep (getQ s σ) (s, ([], [])) h a

theorem capOK_process_queues (s : TicketClassifier) (h : capOK s) :
    capOK (process_queues s).1 := by
  unfold process_queues
  exact capOK_process_one _ _ (capOK_process_one _ _ (capOK_process_one _ _ h))

theorem capOK_create (s : TicketClassifier) (id : String) (p : Priority)
    (t : TicketType) (nn : Option (String × ℚ)) (h : capOK s) :
    capOK (s.create_ticket id p t nn).1 := by
  cases hf : s.find_available_agent p t with
  | some a =>
    rw [create_ticket_eq_assigned s id p t nn a hf]
    intro b
    have ha : s.get_agent_load a < MAX_TICKETS_PER_AGENT :=
      (avail_iff_lt s a).mp (find_avail s p t a hf)
    simp only [get_agent_load, Workloads.get_set]
    by_cases hab : b = a
    · subst hab
      simpa [get_agent_load, List.length_append] using ha
    · simp only [if_neg hab]
      exact h b
  | none =>
    rw [create_ticket_eq_queued s id p t nn hf]
    intro b
    rw [setQ_load]
    exact h b

/-- `close_core` equation: the ticket was never assigned — only the status
changes (this is the branch that leaves a queued id in its queue). -/
theorem close_core_eq_unassigned (s : TicketClassifier) (id : String)
    (tk : Ticket) (h : tk.assigned_agent = none) :
    close_core s id tk =
      { s with
        tickets := storeUpdate s.tickets id
            (fun t => { t with status := closed }) } := by
  simp only [close_core, h]

/-- `close_core` equation: the ticket was assigned and its id is in the
agent's workload, which loses its first occurrence of the id. -/
theorem close_core_eq_assigned_mem (s : TicketClassifier) (id : String)
    (tk : Ticket) (a : AgentName) (h : tk.assigned_agent = some a)
    (hm : id ∈ s.agent_tickets.get a) :
    close_core s id tk =
      { s with
        tickets := storeUpdate s.tickets id (fun t => { t with status := closed })
        agent_tickets := s.agent_tickets.set a ((s.agent_tickets.get a).erase id) } := by
  simp only [close_core, h]
  rw [if_pos hm]

/-- `close_core` equation: the ticket claims an agent that does not hold
its id — only the status changes. -/
theorem close_core_eq_assigned_notmem (s : TicketClassifier) (id : String)
    (tk : Ticket) (a : AgentName) (h : tk.assigned_agent = some a)
    (hm : id ∉ s.agent_tickets.get a) :
    close_core s id tk =
      { s with
        tickets := storeUpdate s.tickets id
            (fun t => { t with status := closed }) } := by
  simp only [close_core, h]
  rw [if_neg hm]

/-- `close_core` never lengthens any workload. -/
theorem close_core_load_le (s : TicketClassifier) (id : String) (tk : Ticket)
    (b : AgentName) :
    (close_core s id tk).get_agent_load b ≤ s.get_agent_load b := by
  cases h : tk.assigned_agent with
  | none => rw [close_core_eq_unassigned s id tk h]; exact le_refl _
  | some a =>
    by_cases hm : id ∈ s.agent_tickets.get a
    · rw [close_core_eq_assigned_mem s id tk a h hm]
      simp only [get_agent_load, Workloads.get_set]
      by_cases hab : b = a
      · subst hab
        simp only [if_pos rfl]
        exact List.Sublist.length_le (List.erase_sublist _ _)
      · simp only [if_neg hab]
        exact le_refl _
    · rw [close_core_eq_assigned_notmem s id tk a h hm]
      exact le_refl _

theorem capOK_close_core (s : TicketClassifier) (id : String) (tk : Ticket)
    (h : capOK s) : capOK (close_core s id tk) :=
  fun a => le_trans (close_core_load_le s id tk a) (h a)

theorem capOK_close (s : TicketClassifier) (id : String) (h : capOK s) :
    capOK (s.close_ticket id).1 := by
  cases h1 : storeLookup s.tickets id with
  | none => rw [close_ticket_eq_notFound s id h1]; exact h
  | some tk =>
    by_cases h2 : tk.status = closed
    · rw [close_ticket_eq_alreadyClosed s id tk h1 h2]; exact h
    · rw [close_ticket_eq_closes s id tk h1 h2]
      exact capOK_process_queues _ (capOK_close_core s id tk h)

theorem capOK_applyOp (s : TicketClassifier) (op : Op) (h : capOK s) :
    capOK (applyOp s op) := by
  cases op with
  | create id p t nn => exact capOK_create s id p t nn h
  | close id => exact capOK_close s id h
  | drain => exact capOK_process_queues s h

end TicketClassifier

/-- C3: in every reachable state, every agent's workload length is at most
the capacity limit `MAX_TICKETS_PER_AGENT = 5`: every append to a workload
(at creation and during a drain) is guarded by `is_agent_available`. -/
theorem C3_workload_within_capacity (s : TicketClassifier) (h : Reachable s)
    (a : AgentName) : s.get_agent_load a ≤ MAX_TICKETS_PER_AGENT := by
  have hcap : capOK s := by
    induction h with
    | init => exact capOK_init
    | step s' op _ ih => exact capOK_applyOp s' op ih
  exact hcap a

/-- Any operation sequence from a reachable state yields a reachable state. -/
theorem reachable_foldl (l : List Op) (s : TicketClassifier) (h : Reachable s) :
    Reachable (l.foldl applyOp s) := by
  induction l generalizing s with
  | nil => exact h
  | cons op l ih => exact ih (applyOp s op) (Reachable.step s op h)

/-- Witness for C3 at a concrete reachable state in which Agent 1 is
exactly at capacity. -/
theorem C3_workload_within_capacity_witness :
    cexS7.get_agent_load agent1 ≤ MAX_TICKETS_PER_AGENT :=
  C3_workload_within_capacity cexS7
    (Reachable.step _ _ (reachable_foldl cexOps initState Reachable.init)) agent1

/-! ## Claim C10: every structurally held id is a store key -/

/-- Every ticket id held in a workload or a priority queue is a key of the
ticket store (so the unguarded `self.tickets[ticket_id]` lookups of
`_process_queues` always succeed). -/
def idsCovered (s : TicketClassifier) : Prop :=
  (∀ a, ∀ tid ∈ s.agent_tickets.get a, (storeLookup s.tickets tid).isSome = true) ∧
  (∀ σ, ∀ tid ∈ TicketClassifier.getQ s σ, (storeLookup s.tickets tid).isSome = true)

theorem storeLookup_isSome_storeUpdate (m : List (String × Ticket)) (x k : String)
    (f : Ticket → Ticket) :
    (storeLookup (storeUpdate m x f) k).isSome = (storeLookup m k).isSome := by
  rw [storeLookup_storeUpdate]
  by_cases hk : k = x
  · subst hk
    rw [if_pos rfl]
    cases storeLookup m k <;> rfl
  · rw [if_neg hk]

theorem storeLookup_isSome_storeSet (m : List (String × Ticket)) (x k : String)
    (v : Ticket) (h : (storeLookup m k).isSome = true) :
    (storeLookup (storeSet m x v) k).isSome = true := by
  rw [storeLookup_storeSet]
  by_cases hk : k = x
  · rw [if_pos hk]; rfl
  · rw [if_neg hk]; exact h

theorem mem_of_mem_foldl_erase (rem : List String) (l : List String) (tid : String)
    (h : tid ∈ rem.foldl (fun l' x => l'.erase x) l) : tid ∈ l := by
  induction rem generalizing l with
  | nil => exact h
  | cons x rem ih =>
    rw [List.foldl_cons] at h
    exact (l.erase_sublist x).mem (ih (l.erase x) h)

namespace TicketClassifier

theorem getQ_setQ (s : TicketClassifier) (σ σ' : QSel) (q : List String) :
    getQ (setQ s σ q) σ' = if σ' = σ then q else getQ s σ' := by
  cases σ <;> cases σ' <;> simp [setQ, getQ]

theorem idsCovered_drainStep
    (acc : TicketClassifier × List String × List AssignEntry) (x : String)
    (h : idsCovered acc.1) : idsCovered (drainStep acc x).1 := by
  obtain ⟨s, r, n⟩ := acc
  obtain ⟨hw, hq⟩ := h
  cases h1 : storeLookup s.tickets x with
  | none => rw [drainStep_eq_missing s r n x h1]; exact ⟨hw, hq⟩
  | some tk =>
    cases h2 : s.find_available_agent tk.priority tk.ticket_type with
    | none => rw [drainStep_eq_stuck s r n x tk h1 h2]; exact ⟨hw, hq⟩
    | some b =>
      rw [drainStep_eq_assign s r n x tk b h1 h2]
      constructor
      · intro a tid htid
        rw [storeLookup_isSome_storeUpdate]
        simp only [Workloads.get_set] at htid
        by_cases hab : a = b
        · rw [if_pos hab] at htid
          rcases List.mem_append.mp htid with h' | h'
          · exact hw b tid h'
          · simp only [List.mem_singleton] at h'
            subst h'
            simp [h1]
        · rw [if_neg hab] at htid
          exact hw a tid htid
      · intro σ tid htid
        rw [storeLookup_isSome_storeUpdate]
        exact hq σ tid htid

theorem idsCovered_foldl_drainStep (q : List String)
    (acc : TicketClassifier × List String × List AssignEntry)
    (h : idsCovered acc.1) : idsCovered (q.foldl drainStep acc).1 := by
  induction q generalizing acc with
  | nil => exact h
  | cons x q ih =>
    rw [List.foldl_cons]
    exact ih (drainStep acc x) (idsCovered_drainStep acc x h)


theorem storeLookup_isSome_of_storePT (m m' : List (String × Ticket))
    (h : ∀ k, storePT m k = storePT m' k) (k : String) :
    (storeLookup m k).isSome = (storeLookup m' k).isSome := by
  have hk := h k
  simp only [storePT] at hk
  cases h1 : storeLookup m k <;> cases h2 : storeLookup m' k <;>
    rw [h1, h2] at hk <;> simp_all

theorem setQ_tickets (s : TicketClassifier) (σ : QSel) (q : List String) :
    (setQ s σ q).tickets = s.tickets := by
  cases σ <;> rfl

/-! Component lemmas for the `create_ticket` and `close_core` equations:
they expose each field of the successor state separately, which is what
the invariant-preservation proofs consume. -/

theorem create_assigned_components (s : TicketClassifier) (id : String)
    (p : Priority) (t : TicketType) (nn : Option (String × ℚ)) (a : AgentName)
    (h : s.find_available_agent p t = some a) :
    (s.create_ticket id p t nn).1.tickets =
        storeSet (storeSet s.tickets id (newTicket id p t nn)) id
          { newTicket id p t nn with
            assigned_agent := some a
            assigned_agent_id := some (AGENT_IDS a)
            status := pending } ∧
    (s.create_ticket id p t nn).1.agent_tickets =
        s.agent_tickets.set a (s.agent_tickets.get a ++ [id]) ∧
    (∀ σ, getQ (s.create_ticket id p t nn).1 σ = getQ s σ) := by
  rw [create_ticket_eq_assigned s id p t nn a h]
  exact ⟨rfl, rfl, fun σ => by cases σ <;> rfl⟩

theorem create_queued_components (s : TicketClassifier) (id : String)
    (p : Priority) (t : TicketType) (nn : Option (String × ℚ))
    (h : s.find_available_agent p t = none) :
    (s.create_ticket id p t nn).1.tickets =
        storeSet s.tickets id (newTicket id p t nn) ∧
    (s.create_ticket id p t nn).1.agent_tickets = s.agent_tickets ∧
    (∀ σ, getQ (s.create_ticket id p t nn).1 σ =
        if σ = qselOf p then getQ s (qselOf p) ++ [id] else getQ s σ) := by
  rw [create_ticket_eq_queued s id p t nn h]
  refine ⟨?_, ?_, ?_⟩
  · rw [setQ_tickets]
  · rw [setQ_agent_tickets]
  · intro σ
    rw [getQ_setQ]
    by_cases hσ : σ = qselOf p
    · rw [if_pos hσ, if_pos hσ]
    · rw [if_neg hσ, if_neg hσ]
      cases σ <;> rfl

theorem close_core_components (s : TicketClassifier) (id : String) (tk : Ticket) :
    (close_core s id tk).tickets =
        storeUpdate s.tickets id (fun t => { t with status := closed }) ∧
    (∀ σ, getQ (close_core s id tk) σ = getQ s σ) ∧
    ((close_core s id tk).agent_tickets = s.agent_tickets ∨
      ∃ a, tk.assigned_agent = some a ∧ id ∈ s.agent_tickets.get a ∧
        (close_core s id tk).agent_tickets =
          s.agent_tickets.set a ((s.agent_tickets.get a).erase id)) := by
  cases ha : tk.assigned_agent with
  | none =>
    rw [close_core_eq_unassigned s id tk ha]
    exact ⟨rfl, fun σ => by cases σ <;> rfl, Or.inl rfl⟩
  | some a =>
    by_cases hm : id ∈ s.agent_tickets.get a
    · rw [close_core_eq_assigned_mem s id tk a ha hm]
      exact ⟨rfl, fun σ => by cases σ <;> rfl, Or.inr ⟨a, rfl, hm, rfl⟩⟩
    · rw [close_core_eq_assigned_notmem s id tk a ha hm]
      exact ⟨rfl, fun σ => by cases σ <;> rfl, Or.inl rfl⟩

theorem idsCovered_process_one (σ : QSel) (acc : TicketClassifier × List AssignEntry)
    (h : idsCovered acc.1) : idsCovered (process_one σ acc).1 := by
  obtain ⟨s, n⟩ := acc
  rw [process_one_state_eq]
  obtain ⟨hw, hq⟩ :=
    idsCovered_foldl_drainStep (getQ s σ) (s, ([], [])) h
  have hsame : ∀ k,
      (storeLookup ((getQ s σ).foldl drainStep (s, ([], []))).1.tickets k).isSome =
        (storeLookup s.tickets k).isSome :=
    storeLookup_isSome_of_storePT _ _
      (foldl_drainStep_storePT (getQ s σ) (s, ([], [])))
  constructor
  · intro a tid htid
    rw [setQ_agent_tickets] at htid
    rw [setQ_tickets]
    exact hw a tid htid
  · intro σ' tid htid
    rw [setQ_tickets]
    rw [getQ_setQ] at htid
    by_cases hσ : σ' = σ
    · rw [if_pos hσ] at htid
      have hmem : tid ∈ getQ s σ := mem_of_mem_foldl_erase _ _ tid htid
      rw [hsame]
      exact h.2 σ tid hmem
    · rw [if_neg hσ] at htid
      rw [foldl_drainStep_queues] at htid
      rw [hsame]
      exact h.2 σ' tid htid

theorem idsCovered_process_queues (s : TicketClassifier) (h : idsCovered s) :
    idsCovered (process_queues s).1 := by
  unfold process_queues
  exact idsCovered_process_one _ _
    (idsCovered_process_one _ _ (idsCovered_process_one _ _ h))

theorem idsCovered_create (s : TicketClassifier) (id : String) (p : Priority)
    (t : TicketType) (nn : Option (String × ℚ)) (h : idsCovered s) :
    idsCovered (s.create_ticket id p t nn).1 := by
  obtain ⟨hw, hq⟩ := h
  cases hf : s.find_available_agent p t with
  | some a =>
    obtain ⟨ht, hwl, hqs⟩ := create_assigned_components s id p t nn a hf
    constructor
    · intro b tid htid
      rw [hwl, Workloads.get_set] at htid
      rw [ht]
      by_cases hab : b = a
      · rw [if_pos hab] at htid
        rcases List.mem_append.mp htid with h' | h'
        · exact storeLookup_isSome_storeSet _ _ _ _
            (storeLookup_isSome_storeSet _ _ _ _ (hw a tid h'))
        · simp only [List.mem_singleton] at h'
          subst h'
          rw [storeLookup_storeSet, if_pos rfl]
          rfl
      · rw [if_neg hab] at htid
        exact storeLookup_isSome_storeSet _ _ _ _
          (storeLookup_isSome_storeSet _ _ _ _ (hw b tid htid))
    · intro σ tid htid
      rw [hqs σ] at htid
      rw [ht]
      exact storeLookup_isSome_storeSet _ _ _ _
        (storeLookup_isSome_storeSet _ _ _ _ (hq σ tid htid))
  | none =>
    obtain ⟨ht, hwl, hqs⟩ := create_queued_components s id p t nn hf
    constructor
    · intro b tid htid
      rw [hwl] at htid
      rw [ht]
      exact storeLookup_isSome_storeSet _ _ _ _ (hw b tid htid)
    · intro σ tid htid
      rw [hqs σ] at htid
      rw [ht]
      by_cases hσ : σ = qselOf p
      · rw [if_pos hσ] at htid
        rcases List.mem_append.mp htid with h' | h'
        · exact storeLookup_isSome_storeSet _ _ _ _ (hq (qselOf p) tid h')
        · simp only [List.mem_singleton] at h'
          subst h'
          rw [storeLookup_storeSet, if_pos rfl]
          rfl
      · rw [if_neg hσ] at htid
        exact storeLookup_isSome_storeSet _ _ _ _ (hq σ tid htid)

theorem idsCovered_close_core (s : TicketClassifier) (id : String) (tk : Ticket)
    (h : idsCovered s) : idsCovered (close_core s id tk) := by
  obtain ⟨hw, hq⟩ := h
  obtain ⟨ht, hqs, hwl⟩ := close_core_components s id tk
  constructor
  · intro b tid htid
    rw [ht, storeLookup_isSome_storeUpdate]
    rcases hwl with hwl | ⟨a, _, _, hwl⟩
    · rw [hwl] at htid
      exact hw b tid htid
    · rw [hwl, Workloads.get_set] at htid
      by_cases hab : b = a
      · rw [if_pos hab] at htid
        exact hw a tid (((s.agent_tickets.get a).erase_sublist id).mem htid)
      · rw [if_neg hab] at htid
        exact hw b tid htid
  · intro σ tid htid
    rw [hqs σ] at htid
    rw [ht, storeLookup_isSome_storeUpdate]
    exact hq σ tid htid

theorem idsCovered_close (s : TicketClassifier) (id : String)
    (h : idsCovered s) : idsCovered (s.close_ticket id).1 := by
  cases h1 : storeLookup s.tickets id with
  | none => rw [close_ticket_eq_notFound s id h1]; exact h
  | some tk =>
    by_cases h2 : tk.status = closed
    · rw [close_ticket_eq_alreadyClosed s id tk h1 h2]; exact h
    · rw [close_ticket_eq_closes s id tk h1 h2]
      exact idsCovered_process_queues _ (idsCovered_close_core s id tk h)

theorem idsCovered_applyOp (s : TicketClassifier) (op : Op)
    (h : idsCovered s) : idsCovered (applyOp s op) := by
  cases op with
  | create id p t nn => exact idsCovered_create s id p t nn h
  | close id => exact idsCovered_close s id h
  | drain => exact idsCovered_process_queues s h

theorem idsCovered_init : idsCovered initState := by
  constructor
  · intro a tid htid
    cases a <;> cases htid
  · intro σ tid htid
    cases σ <;> cases htid

end TicketClassifier

/-- C10: in every reachable state, every ticket id held in a workload or a
priority queue is a key of the ticket store; hence each unguarded
`self.tickets[ticket_id]` lookup that a drain performs on a queued id
succeeds and the drain never fails on a missing key (the missing-key
branch of the model's `drainStep` is never taken). -/
theorem C10_structure_ids_are_store_keys (s : TicketClassifier)
    (h : Reachable s) :
    (∀ a, ∀ tid ∈ s.agent_tickets.get a, (storeLookup s.tickets tid).isSome = true) ∧
    (∀ σ, ∀ tid ∈ TicketClassifier.getQ s σ, (storeLookup s.tickets tid).isSome = true) := by
  induction h with
  | init => exact idsCovered_init
  | step s' op _ ih => exact idsCovered_applyOp s' op ih

/-- Witness for C10 at a concrete reachable state holding both assigned
and queued ticket ids. -/
theorem C10_structure_ids_are_store_keys_witness :
    (storeLookup cexS7.tickets "T6").isSome = true :=
  (C10_structure_ids_are_store_keys cexS7
    (Reachable.step _ _ (reachable_foldl cexOps initState Reachable.init))).2
    TicketClassifier.QSel.qhigh "T6" (by decide)

/-! ## Claim C5: drain visits high → medium → low in insertion order -/

namespace TicketClassifier

/-- The inner drain loop only appends to the two accumulator lists, the
removed ids equal the ids of the newly assigned entries, and they form an
in-order subsequence of the processed queue (each queue element is
evaluated exactly once, in insertion order). -/
theorem foldl_drainStep_acc (q : List String) (s0 : TicketClassifier)
    (r0 : List String) (n0 : List AssignEntry) :
    ∃ Δ : List AssignEntry,
      (q.foldl drainStep (s0, r0, n0)).2.1 = r0 ++ Δ.map AssignEntry.ticket_id ∧
      (q.foldl drainStep (s0, r0, n0)).2.2 = n0 ++ Δ ∧
      List.Sublist (Δ.map AssignEntry.ticket_id) q := by
  induction q generalizing s0 r0 n0 with
  | nil => exact ⟨[], by simp, by simp, by simp⟩
  | cons x q ih =>
    rw [List.foldl_cons]
    cases h1 : storeLookup s0.tickets x with
    | none =>
      rw [drainStep_eq_missing s0 r0 n0 x h1]
      obtain ⟨Δ, hr, hn, hs⟩ := ih s0 r0 n0
      exact ⟨Δ, hr, hn, hs.cons x⟩
    | some tk =>
      cases h2 : s0.find_available_agent tk.priority tk.ticket_type with
      | none =>
        rw [drainStep_eq_stuck s0 r0 n0 x tk h1 h2]
        obtain ⟨Δ, hr, hn, hs⟩ := ih s0 r0 n0
        exact ⟨Δ, hr, hn, hs.cons x⟩
      | some a =>
        rw [drainStep_eq_assign s0 r0 n0 x tk a h1 h2]
        obtain ⟨Δ, hr, hn, hs⟩ := ih _ (r0 ++ [x]) (n0 ++ [⟨x, a, AGENT_IDS a⟩])
        refine ⟨⟨x, a, AGENT_IDS a⟩ :: Δ, ?_, ?_, ?_⟩
        · rw [hr]; simp
        · rw [hn]; simp
        · simpa using hs.cons₂ x

/-- The post-loop removal pass of `_process_queues` (`queue.remove` per
assigned id) is `List.diff`. -/
theorem foldl_erase_eq_diff (rem l : List String) :
    rem.foldl (fun l' x => l'.erase x) l = l.diff rem := by
  induction rem generalizing l with
  | nil => simp
  | cons x rem ih => rw [List.foldl_cons, ih, List.diff_cons]

/-- The second component of `process_one` in terms of the inner loop. -/
theorem process_one_snd_eq (σ : QSel) (s : TicketClassifier)
    (n0 : List AssignEntry) :
    (process_one σ (s, n0)).2 =
      n0 ++ ((getQ s σ).foldl drainStep (s, ([], []))).2.2 := by
  cases σ <;> rfl

/-- One queue pass, generalized over the running accumulator. -/
theorem process_one_drain_spec (σ : QSel) (acc : TicketClassifier × List AssignEntry)
    (hnd : (getQ acc.1 σ).Nodup) :
    ∃ Δ : List AssignEntry,
      (process_one σ acc).2 = acc.2 ++ Δ ∧
      List.Sublist (Δ.map AssignEntry.ticket_id) (getQ acc.1 σ) ∧
      getQ (process_one σ acc).1 σ =
        (getQ acc.1 σ).filter (fun y => y ∉ Δ.map AssignEntry.ticket_id) ∧
      (∀ σ', σ' ≠ σ → getQ (process_one σ acc).1 σ' = getQ acc.1 σ') := by
  obtain ⟨s, n0⟩ := acc
  obtain ⟨Δ, hr, hn, hs⟩ := foldl_drainStep_acc (getQ s σ) s [] []
  refine ⟨Δ, ?_, hs, ?_, ?_⟩
  · rw [process_one_snd_eq, hn]
    simp
  · rw [process_one_state_eq, getQ_setQ, if_pos rfl, hr]
    simp only [List.nil_append]
    rw [foldl_erase_eq_diff]
    exact hnd.diff_eq_filter
  · intro σ' hσ'
    rw [process_one_state_eq, getQ_setQ, if_neg hσ', foldl_drainStep_queues]

end TicketClassifier

open TicketClassifier.QSel

/-! ## Claims C4 and C7: the location invariant for non-closed tickets -/

/-- How many times a ticket id occurs across the six id-holding structures
(three workloads, three priority queues). -/
def countIn (s : TicketClassifier) (y : String) : Nat :=
  (s.agent_tickets.get agent1).count y + (s.agent_tickets.get agent2).count y +
    (s.agent_tickets.get agent3).count y + (getQ s qhigh).count y +
    (getQ s qmed).count y + (getQ s qlow).count y

/-- The structural invariant of the engine, for operation sequences whose
created ids are pairwise distinct (`ReachableD`): workload members are
pending tickets assigned to that agent; queue members are non-pending
tickets of that queue's priority; an open ticket sits in the queue of its
priority and a pending ticket in its agent's workload; and no id occurs
more than once across all six structures. -/
structure Inv0 (s : TicketClassifier) : Prop where
  wl : ∀ a, ∀ tid ∈ s.agent_tickets.get a, ∃ tk,
      storeLookup s.tickets tid = some tk ∧ tk.status = pending ∧
      tk.assigned_agent = some a
  qu : ∀ σ, ∀ tid ∈ getQ s σ, ∃ tk,
      storeLookup s.tickets tid = some tk ∧ qselOf tk.priority = σ ∧
      tk.status ≠ pending
  openLoc : ∀ tid tk, storeLookup s.tickets tid = some tk →
      tk.status = statusOpen → tid ∈ getQ s (qselOf tk.priority)
  pendLoc : ∀ tid tk, storeLookup s.tickets tid = some tk →
      tk.status = pending → ∃ a, tk.assigned_agent = some a ∧
      tid ∈ s.agent_tickets.get a
  uniq : ∀ y, countIn s y ≤ 1

namespace TicketClassifier

theorem count_wl_le_countIn (s : TicketClassifier) (a : AgentName) (y : String) :
    (s.agent_tickets.get a).count y ≤ countIn s y := by
  cases a <;> unfold countIn <;> omega

theorem count_q_le_countIn (s : TicketClassifier) (σ : QSel) (y : String) :
    (getQ s σ).count y ≤ countIn s y := by
  cases σ <;> unfold countIn <;> omega

theorem Inv0.queue_nodup (s : TicketClassifier) (h : Inv0 s) (σ : QSel) :
    (getQ s σ).Nodup :=
  List.nodup_iff_count_le_one.mpr
    (fun y => le_trans (count_q_le_countIn s σ y) (h.uniq y))

theorem Inv0.wl_nodup (s : TicketClassifier) (h : Inv0 s) (a : AgentName) :
    (s.agent_tickets.get a).Nodup :=
  List.nodup_iff_count_le_one.mpr
    (fun y => le_trans (count_wl_le_countIn s a y) (h.uniq y))

/-- A queue member is in no workload and in no other queue (and only once
in its own queue). -/
theorem Inv0.q_excl (s : TicketClassifier) (h : Inv0 s) (σ : QSel) (y : String)
    (hy : y ∈ getQ s σ) :
    (∀ a, y ∉ s.agent_tickets.get a) ∧
      (∀ σ', σ' ≠ σ → y ∉ getQ s σ') ∧ (getQ s σ).count y = 1 := by
  have h1 : 0 < (getQ s σ).count y := List.count_pos_iff.mpr hy
  have h2 := h.uniq y
  refine ⟨?_, ?_, ?_⟩
  · intro a hmem
    have := List.count_pos_iff.mpr hmem
    have := count_wl_le_countIn s a y
    have := count_q_le_countIn s σ y
    cases a <;> cases σ <;> unfold countIn at h2 <;> omega
  · intro σ' hne hmem
    have := List.count_pos_iff.mpr hmem
    cases σ <;> cases σ' <;> try exact absurd rfl hne
    all_goals unfold countIn at h2 <;> omega
  · have := count_q_le_countIn s σ y
    omega

/-- A workload member is in no queue and in no other workload. -/
theorem Inv0.wl_excl (s : TicketClassifier) (h : Inv0 s) (a : AgentName)
    (y : String) (hy : y ∈ s.agent_tickets.get a) :
    (∀ σ, y ∉ getQ s σ) ∧ (∀ b, b ≠ a → y ∉ s.agent_tickets.get b) ∧
      (s.agent_tickets.get a).count y = 1 := by
  have h1 : 0 < (s.agent_tickets.get a).count y := List.count_pos_iff.mpr hy
  have h2 := h.uniq y
  refine ⟨?_, ?_, ?_⟩
  · intro σ hmem
    have := List.count_pos_iff.mpr hmem
    cases a <;> cases σ <;> unfold countIn at h2 <;> omega
  · intro b hne hmem
    have := List.count_pos_iff.mpr hmem
    cases a <;> cases b <;> try exact absurd rfl hne
    all_goals unfold countIn at h2 <;> omega
  · have := count_wl_le_countIn s a y
    omega

end TicketClassifier

namespace TicketClassifier

theorem setQ_getQ_self (s : TicketClassifier) (σ : QSel) :
    setQ s σ (getQ s σ) = s := by
  cases σ <;> rfl

theorem countIn_setQ (s : TicketClassifier) (σ : QSel) (L : List String)
    (y : String) :
    countIn (setQ s σ L) y + (getQ s σ).count y = countIn s y + L.count y := by
  cases σ <;> simp [countIn, setQ, getQ] <;> omega

theorem countIn_set_wl (s : TicketClassifier) (a : AgentName) (l : List String)
    (y : String) :
    countIn { s with agent_tickets := s.agent_tickets.set a l } y +
      (s.agent_tickets.get a).count y = countIn s y + l.count y := by
  cases a <;> simp [countIn, Workloads.set, Workloads.get, getQ] <;> omega

theorem countIn_update_wt (s : TicketClassifier) (m : List (String × Ticket))
    (a : AgentName) (l : List String) (y : String) :
    countIn { s with
        tickets := m
        agent_tickets := s.agent_tickets.set a l } y =
      countIn { s with agent_tickets := s.agent_tickets.set a l } y := rfl

theorem getQ_update_wt (s : TicketClassifier) (m : List (String × Ticket))
    (w : Workloads) (σ : QSel) :
    getQ { s with
        tickets := m
        agent_tickets := w } σ = getQ s σ := by
  cases σ <;> rfl

/-- The assign step of the drain preserves the total multiplicity of every
id: the assigned id moves from the processed queue into a workload. -/
theorem countIn_assign_preserved (s : TicketClassifier) (σ : QSel)
    (Lv : List String) (x : String) (a : AgentName)
    (m : List (String × Ticket)) (y : String) (hx : x ∈ Lv) :
    countIn (setQ { s with
        tickets := m
        agent_tickets := s.agent_tickets.set a (s.agent_tickets.get a ++ [x]) }
      σ (Lv.erase x)) y = countIn (setQ s σ Lv) y := by
  have i1 := countIn_setQ { s with
      tickets := m
      agent_tickets := s.agent_tickets.set a (s.agent_tickets.get a ++ [x]) }
    σ (Lv.erase x) y
  rw [getQ_update_wt, countIn_update_wt] at i1
  have i2 := countIn_set_wl s a (s.agent_tickets.get a ++ [x]) y
  have i3 := countIn_setQ s σ Lv y
  have hc : 0 < Lv.count x := List.count_pos_iff.mpr hx
  by_cases hyx : y = x
  · subst hyx
    have i4 : (s.agent_tickets.get a ++ [y]).count y =
        (s.agent_tickets.get a).count y + 1 := by
      simp
    have i5 : (Lv.erase y).count y = Lv.count y - 1 := List.count_erase_self y Lv
    omega
  · have i4 : (s.agent_tickets.get a ++ [x]).count y =
        (s.agent_tickets.get a).count y := by
      simp [List.count_append, List.count_singleton, hyx]
    have i5 : (Lv.erase x).count y = Lv.count y := List.count_erase_of_ne hyx Lv
    omega

end TicketClassifier

namespace TicketClassifier

theorem getQ_setQ_same (s : TicketClassifier) (σ : QSel) (L : List String) :
    getQ (setQ s σ L) σ = L := by
  cases σ <;> rfl

theorem getQ_setQ_ne (s : TicketClassifier) (σ σ' : QSel) (L : List String)
    (h : σ' ≠ σ) : getQ (setQ s σ L) σ' = getQ s σ' := by
  rw [getQ_setQ, if_neg h]

theorem update_wt_tickets (s : TicketClassifier) (m : List (String × Ticket))
    (w : Workloads) :
    ({ s with tickets := m, agent_tickets := w } : TicketClassifier).tickets = m := rfl

theorem update_wt_wl (s : TicketClassifier) (m : List (String × Ticket))
    (w : Workloads) :
    ({ s with tickets := m, agent_tickets := w } : TicketClassifier).agent_tickets = w := rfl

/-- The assign step of the drain preserves the structural invariant on the
virtual state whose processed queue already excludes the assigned ids. -/
theorem Inv0_assign_step (s : TicketClassifier) (σ : QSel) (Lv : List String)
    (x : String) (tk : Ticket) (a : AgentName)
    (hInv : Inv0 (setQ s σ Lv))
    (hx : x ∈ Lv)
    (h1 : storeLookup s.tickets x = some tk)
    (h2 : s.find_available_agent tk.priority tk.ticket_type = some a) :
    Inv0 (setQ { s with
        tickets := storeUpdate s.tickets x (fun t =>
          { t with
            assigned_agent := some a
            assigned_agent_id := some (AGENT_IDS a)
            status := pending })
        agent_tickets := s.agent_tickets.set a (s.agent_tickets.get a ++ [x]) }
      σ (Lv.erase x)) := by
  have hxq : x ∈ getQ (setQ s σ Lv) σ := by rw [getQ_setQ_same]; exact hx
  obtain ⟨hexw, hexq, hcnt⟩ := Inv0.q_excl (setQ s σ Lv) hInv σ x hxq
  have hexw' : ∀ b, x ∉ s.agent_tickets.get b := by
    intro b
    have := hexw b
    rwa [setQ_agent_tickets] at this
  have hexq' : ∀ σ', σ' ≠ σ → x ∉ getQ s σ' := by
    intro σ' hσ'
    have := hexq σ' hσ'
    rwa [getQ_setQ_ne s σ σ' Lv hσ'] at this
  have hcnt' : Lv.count x = 1 := by rwa [getQ_setQ_same] at hcnt
  refine ⟨?_, ?_, ?_, ?_, ?_⟩
  · -- wl
    intro b tid htid
    rw [setQ_agent_tickets, update_wt_wl, Workloads.get_set] at htid
    rw [setQ_tickets, update_wt_tickets, storeLookup_storeUpdate]
    by_cases hb : b = a
    · subst hb
      rw [if_pos rfl] at htid
      rcases List.mem_append.mp htid with hmem | hmem
      · have hne : tid ≠ x := fun hEq => (hexw' b) (hEq ▸ hmem)
        rw [if_neg hne]
        obtain ⟨tk₁, hl₁, hp₁, ha₁⟩ := hInv.wl b tid
          (by rw [setQ_agent_tickets]; exact hmem)
        rw [setQ_tickets] at hl₁
        exact ⟨tk₁, hl₁, hp₁, ha₁⟩
      · simp only [List.mem_singleton] at hmem
        subst hmem
        rw [if_pos rfl, h1]
        exact ⟨_, rfl, rfl, rfl⟩
    · rw [if_neg hb] at htid
      have hne : tid ≠ x := fun hEq => (hexw' b) (hEq ▸ htid)
      rw [if_neg hne]
      obtain ⟨tk₁, hl₁, hp₁, ha₁⟩ := hInv.wl b tid
        (by rw [setQ_agent_tickets]; exact htid)
      rw [setQ_tickets] at hl₁
      exact ⟨tk₁, hl₁, hp₁, ha₁⟩
  · -- qu
    intro σ' tid htid
    rw [setQ_tickets, update_wt_tickets, storeLookup_storeUpdate]
    by_cases hσ : σ' = σ
    · subst hσ
      rw [getQ_setQ_same] at htid
      have htid' : tid ∈ Lv := (Lv.erase_sublist x).mem htid
      have hne : tid ≠ x := by
        intro hEq
        subst hEq
        have h0 : (Lv.erase tid).count tid = Lv.count tid - 1 :=
          List.count_erase_self tid Lv
        have := List.count_pos_iff.mpr htid
        omega
      rw [if_neg hne]
      obtain ⟨tk₁, hl₁, hsel₁, hnp₁⟩ := hInv.qu σ' tid
        (by rw [getQ_setQ_same]; exact htid')
      rw [setQ_tickets] at hl₁
      exact ⟨tk₁, hl₁, hsel₁, hnp₁⟩
    · rw [getQ_setQ_ne _ _ _ _ hσ, getQ_update_wt] at htid
      have hne : tid ≠ x := fun hEq => (hexq' σ' hσ) (hEq ▸ htid)
      rw [if_neg hne]
      obtain ⟨tk₁, hl₁, hsel₁, hnp₁⟩ := hInv.qu σ' tid
        (by rw [getQ_setQ_ne s σ σ' Lv hσ]; exact htid)
      rw [setQ_tickets] at hl₁
      exact ⟨tk₁, hl₁, hsel₁, hnp₁⟩
  · -- openLoc
    intro tid tk₁ hl₁ hop
    rw [setQ_tickets, update_wt_tickets, storeLookup_storeUpdate] at hl₁
    by_cases hne : tid = x
    · rw [if_pos hne, h1] at hl₁
      simp only [Option.map_some'] at hl₁
      cases hl₁
      cases hop
    · rw [if_neg hne] at hl₁
      have hloc := hInv.openLoc tid tk₁ (by rw [setQ_tickets]; exact hl₁) hop
      by_cases hσ : qselOf tk₁.priority = σ
      · rw [hσ, getQ_setQ_same] at hloc
        rw [hσ, getQ_setQ_same]
        exact (List.mem_erase_of_ne hne).mpr hloc
      · rw [getQ_setQ_ne s σ _ Lv hσ] at hloc
        rw [getQ_setQ_ne _ σ _ _ hσ, getQ_update_wt]
        exact hloc
  · -- pendLoc
    intro tid tk₁ hl₁ hp
    rw [setQ_tickets, update_wt_tickets, storeLookup_storeUpdate] at hl₁
    rw [setQ_agent_tickets, update_wt_wl]
    by_cases hne : tid = x
    · subst hne
      rw [if_pos rfl, h1] at hl₁
      simp only [Option.map_some'] at hl₁
      cases hl₁
      refine ⟨a, rfl, ?_⟩
      rw [Workloads.get_set_self]
      exact List.mem_append.mpr (Or.inr (List.mem_singleton.mpr rfl))
    · rw [if_neg hne] at hl₁
      obtain ⟨b, hab, hmem⟩ := hInv.pendLoc tid tk₁
        (by rw [setQ_tickets]; exact hl₁) hp
      rw [setQ_agent_tickets] at hmem
      refine ⟨b, hab, ?_⟩
      rw [Workloads.get_set]
      by_cases hb : b = a
      · subst hb
        rw [if_pos rfl]
        exact List.mem_append.mpr (Or.inl hmem)
      · rw [if_neg hb]
        exact hmem
  · -- uniq
    intro y
    rw [countIn_assign_preserved s σ Lv x a _ y hx]
    exact hInv.uniq y

end TicketClassifier

namespace TicketClassifier

/-- The inner drain loop preserves the structural invariant on the virtual
state whose processed queue excludes the ids assigned so far. -/
theorem Inv0_drain_fold (σ : QSel) (q : List String) :
    ∀ (s : TicketClassifier) (r : List String) (n : List AssignEntry)
      (Lv : List String),
      Inv0 (setQ s σ Lv) → (∀ y ∈ q, y ∈ Lv) → q.Nodup →
      ∃ Δ : List String,
        (q.foldl drainStep (s, r, n)).2.1 = r ++ Δ ∧
        Inv0 (setQ (q.foldl drainStep (s, r, n)).1 σ
          (Δ.foldl (fun l z => l.erase z) Lv)) := by
  induction q with
  | nil =>
    intro s r n Lv hInv _ _
    exact ⟨[], by simp, hInv⟩
  | cons x q ih =>
    intro s r n Lv hInv hsub hnd
    rw [List.foldl_cons]
    cases h1 : storeLookup s.tickets x with
    | none =>
      rw [drainStep_eq_missing s r n x h1]
      exact ih s r n Lv hInv (fun y hy => hsub y (List.mem_cons_of_mem x hy))
        hnd.of_cons
    | some tk =>
      cases h2 : s.find_available_agent tk.priority tk.ticket_type with
      | none =>
        rw [drainStep_eq_stuck s r n x tk h1 h2]
        exact ih s r n Lv hInv (fun y hy => hsub y (List.mem_cons_of_mem x hy))
          hnd.of_cons
      | some a =>
        rw [drainStep_eq_assign s r n x tk a h1 h2]
        have hx : x ∈ Lv := hsub x (List.mem_cons_self x q)
        have hInv' := Inv0_assign_step s σ Lv x tk a hInv hx h1 h2
        have hsub' : ∀ y ∈ q, y ∈ Lv.erase x := by
          intro y hy
          have hyx : y ≠ x := by
            intro hEq
            subst hEq
            exact (List.nodup_cons.mp hnd).1 hy
          exact (List.mem_erase_of_ne hyx).mpr (hsub y (List.mem_cons_of_mem x hy))
        obtain ⟨Δ, hr, hI⟩ := ih _ (r ++ [x]) (n ++ [⟨x, a, AGENT_IDS a⟩])
          (Lv.erase x) hInv' hsub' hnd.of_cons
        refine ⟨x :: Δ, ?_, ?_⟩
        · rw [hr]
          simp
        · rw [List.foldl_cons]
          exact hI

/-- `process_one` preserves the structural invariant. -/
theorem Inv0_process_one (σ : QSel) (acc : TicketClassifier × List AssignEntry)
    (h : Inv0 acc.1) : Inv0 (process_one σ acc).1 := by
  obtain ⟨s, n⟩ := acc
  rw [process_one_state_eq]
  have hinit : Inv0 (setQ s σ (getQ s σ)) := by
    rw [setQ_getQ_self]
    exact h
  obtain ⟨Δ, hr, hI⟩ := Inv0_drain_fold σ (getQ s σ) s [] [] (getQ s σ) hinit
    (fun y hy => hy) (Inv0.queue_nodup s h σ)
  rw [hr]
  simp only [List.nil_append]
  exact hI

/-- `_process_queues` preserves the structural invariant. -/
theorem Inv0_process_queues (s : TicketClassifier) (h : Inv0 s) :
    Inv0 (process_queues s).1 := by
  unfold process_queues
  exact Inv0_process_one _ _ (Inv0_process_one _ _ (Inv0_process_one _ _ h))

end TicketClassifier

namespace TicketClassifier

theorem update_t_wl (s : TicketClassifier) (m : List (String × Ticket)) :
    ({ s with tickets := m } : TicketClassifier).agent_tickets = s.agent_tickets := rfl

theorem update_t_getQ (s : TicketClassifier) (m : List (String × Ticket))
    (σ : QSel) : getQ ({ s with tickets := m } : TicketClassifier) σ = getQ s σ := by
  cases σ <;> rfl

theorem countIn_update_t (s : TicketClassifier) (m : List (String × Ticket))
    (y : String) : countIn ({ s with tickets := m } : TicketClassifier) y = countIn s y := rfl

/-- A fresh id occurs in no workload and no queue. -/
theorem Inv0.fresh_not_held (s : TicketClassifier) (h : Inv0 s) (id : String)
    (hfresh : storeLookup s.tickets id = none) :
    (∀ a, id ∉ s.agent_tickets.get a) ∧ (∀ σ, id ∉ getQ s σ) ∧ countIn s id = 0 := by
  have hidw : ∀ a, id ∉ s.agent_tickets.get a := by
    intro a hmem
    obtain ⟨tk, hl, _, _⟩ := h.wl a id hmem
    rw [hfresh] at hl
    cases hl
  have hidq : ∀ σ, id ∉ getQ s σ := by
    intro σ hmem
    obtain ⟨tk, hl, _, _⟩ := h.qu σ id hmem
    rw [hfresh] at hl
    cases hl
  refine ⟨hidw, hidq, ?_⟩
  unfold countIn
  rw [List.count_eq_zero.mpr (hidw agent1), List.count_eq_zero.mpr (hidw agent2),
    List.count_eq_zero.mpr (hidw agent3), List.count_eq_zero.mpr (hidq qhigh),
    List.count_eq_zero.mpr (hidq qmed), List.count_eq_zero.mpr (hidq qlow)]

/-- `create_ticket` with a fresh id preserves the structural invariant. -/
theorem Inv0_create (s : TicketClassifier) (id : String) (p : Priority)
    (t : TicketType) (nn : Option (String × ℚ)) (h : Inv0 s)
    (hfresh : storeLookup s.tickets id = none) :
    Inv0 (s.create_ticket id p t nn).1 := by
  obtain ⟨hidw, hidq, hcnt0⟩ := Inv0.fresh_not_held s h id hfresh
  cases hf : s.find_available_agent p t with
  | some a =>
    rw [create_ticket_eq_assigned s id p t nn a hf]
    have hlook : ∀ k, storeLookup (storeSet (storeSet s.tickets id (newTicket id p t nn)) id
        { newTicket id p t nn with
          assigned_agent := some a
          assigned_agent_id := some (AGENT_IDS a)
          status := pending }) k =
        if k = id then some { newTicket id p t nn with
          assigned_agent := some a
          assigned_agent_id := some (AGENT_IDS a)
          status := pending } else storeLookup s.tickets k := by
      intro k
      rw [storeLookup_storeSet, storeLookup_storeSet]
      by_cases hk : k = id
      · rw [if_pos hk, if_pos hk]
      · rw [if_neg hk, if_neg hk, if_neg hk]
    refine ⟨?_, ?_, ?_, ?_, ?_⟩
    · intro b tid htid
      rw [update_wt_wl, Workloads.get_set] at htid
      rw [update_wt_tickets, hlook]
      by_cases hb : b = a
      · subst hb
        rw [if_pos rfl] at htid
        rcases List.mem_append.mp htid with hmem | hmem
        · have hne : tid ≠ id := fun hEq => (hidw b) (hEq ▸ hmem)
          rw [if_neg hne]
          exact h.wl b tid hmem
        · simp only [List.mem_singleton] at hmem
          subst hmem
          rw [if_pos rfl]
          exact ⟨_, rfl, rfl, rfl⟩
      · rw [if_neg hb] at htid
        have hne : tid ≠ id := fun hEq => (hidw b) (hEq ▸ htid)
        rw [if_neg hne]
        exact h.wl b tid htid
    · intro σ tid htid
      rw [getQ_update_wt] at htid
      rw [update_wt_tickets, hlook]
      have hne : tid ≠ id := fun hEq => (hidq σ) (hEq ▸ htid)
      rw [if_neg hne]
      exact h.qu σ tid htid
    · intro tid tk₁ hl₁ hop
      rw [update_wt_tickets, hlook] at hl₁
      rw [getQ_update_wt]
      by_cases hne : tid = id
      · rw [if_pos hne] at hl₁
        cases hl₁
        cases hop
      · rw [if_neg hne] at hl₁
        exact h.openLoc tid tk₁ hl₁ hop
    · intro tid tk₁ hl₁ hp
      rw [update_wt_tickets, hlook] at hl₁
      rw [update_wt_wl]
      by_cases hne : tid = id
      · subst hne
        rw [if_pos rfl] at hl₁
        cases hl₁
        refine ⟨a, rfl, ?_⟩
        rw [Workloads.get_set_self]
        exact List.mem_append.mpr (Or.inr (List.mem_singleton.mpr rfl))
      · rw [if_neg hne] at hl₁
        obtain ⟨b, hab, hmem⟩ := h.pendLoc tid tk₁ hl₁ hp
        refine ⟨b, hab, ?_⟩
        rw [Workloads.get_set]
        by_cases hb : b = a
        · subst hb
          rw [if_pos rfl]
          exact List.mem_append.mpr (Or.inl hmem)
        · rw [if_neg hb]
          exact hmem
    · intro y
      show countIn { s with
          tickets := storeSet (storeSet s.tickets id (newTicket id p t nn)) id
            { newTicket id p t nn with
              assigned_agent := some a
              assigned_agent_id := some (AGENT_IDS a)
              status := pending }
          agent_tickets := s.agent_tickets.set a (s.agent_tickets.get a ++ [id]) } y ≤ 1
      rw [countIn_update_wt]
      have i2 := countIn_set_wl s a (s.agent_tickets.get a ++ [id]) y
      have h0 := h.uniq y
      by_cases hy : y = id
      · subst hy
        have i4 : (s.agent_tickets.get a ++ [y]).count y =
            (s.agent_tickets.get a).count y + 1 := by simp
        omega
      · have i4 : (s.agent_tickets.get a ++ [id]).count y =
            (s.agent_tickets.get a).count y := by
          simp [List.count_append, List.count_singleton, hy]
        omega
  | none =>
    rw [create_ticket_eq_queued s id p t nn hf]
    have hlook : ∀ k, storeLookup (storeSet s.tickets id (newTicket id p t nn)) k =
        if k = id then some (newTicket id p t nn) else storeLookup s.tickets k := by
      intro k
      rw [storeLookup_storeSet]
    refine ⟨?_, ?_, ?_, ?_, ?_⟩
    · intro b tid htid
      rw [setQ_agent_tickets, update_t_wl] at htid
      rw [setQ_tickets, hlook]
      have hne : tid ≠ id := fun hEq => (hidw b) (hEq ▸ htid)
      rw [if_neg hne]
      exact h.wl b tid htid
    · intro σ tid htid
      rw [setQ_tickets, hlook]
      by_cases hσ : σ = qselOf p
      · subst hσ
        rw [getQ_setQ_same] at htid
        rcases List.mem_append.mp htid with hmem | hmem
        · rw [update_t_getQ] at hmem
          have hne : tid ≠ id := fun hEq => (hidq (qselOf p)) (hEq ▸ hmem)
          rw [if_neg hne]
          exact h.qu (qselOf p) tid hmem
        · simp only [List.mem_singleton] at hmem
          subst hmem
          rw [if_pos rfl]
          exact ⟨newTicket tid p t nn, rfl, rfl, by simp [newTicket]⟩
      · rw [getQ_setQ_ne _ _ _ _ hσ, update_t_getQ] at htid
        have hne : tid ≠ id := fun hEq => (hidq σ) (hEq ▸ htid)
        rw [if_neg hne]
        exact h.qu σ tid htid
    · intro tid tk₁ hl₁ hop
      rw [setQ_tickets, hlook] at hl₁
      by_cases hne : tid = id
      · subst hne
        rw [if_pos rfl] at hl₁
        cases hl₁
        simp only [newTicket]
        rw [getQ_setQ_same]
        exact List.mem_append.mpr (Or.inr (List.mem_singleton.mpr rfl))
      · rw [if_neg hne] at hl₁
        have hloc := h.openLoc tid tk₁ hl₁ hop
        by_cases hσ : qselOf tk₁.priority = qselOf p
        · rw [hσ, getQ_setQ_same, update_t_getQ]
          exact List.mem_append.mpr (Or.inl (hσ ▸ hloc))
        · rw [getQ_setQ_ne _ _ _ _ hσ, update_t_getQ]
          exact hloc
    · intro tid tk₁ hl₁ hp
      rw [setQ_tickets, hlook] at hl₁
      rw [setQ_agent_tickets, update_t_wl]
      by_cases hne : tid = id
      · subst hne
        rw [if_pos rfl] at hl₁
        cases hl₁
        cases hp
      · rw [if_neg hne] at hl₁
        exact h.pendLoc tid tk₁ hl₁ hp
    · intro y
      show countIn (setQ { s with tickets := storeSet s.tickets id (newTicket id p t nn) }
        (qselOf p) (getQ s (qselOf p) ++ [id])) y ≤ 1
      have i1 := countIn_setQ { s with tickets := storeSet s.tickets id (newTicket id p t nn) }
        (qselOf p) (getQ s (qselOf p) ++ [id]) y
      simp only [countIn_update_t, update_t_getQ] at i1
      have h0 := h.uniq y
      by_cases hy : y = id
      · subst hy
        have i4 : (getQ s (qselOf p) ++ [y]).count y =
            (getQ s (qselOf p)).count y + 1 := by simp
        omega
      · have i4 : (getQ s (qselOf p) ++ [id]).count y =
            (getQ s (qselOf p)).count y := by
          simp [List.count_append, List.count_singleton, hy]
        omega

end TicketClassifier


namespace TicketClassifier

theorem update_t_tickets (s : TicketClassifier) (m : List (String × Ticket)) :
    ({ s with tickets := m } : TicketClassifier).tickets = m := rfl

/-- `close_core` on a live ticket preserves the structural invariant. -/
theorem Inv0_close_core (s : TicketClassifier) (id : String) (tk : Ticket)
    (h : Inv0 s) (hl : storeLookup s.tickets id = some tk)
    (hnc : tk.status ≠ closed) : Inv0 (close_core s id tk) := by
  have hlook : ∀ k, storeLookup
      (storeUpdate s.tickets id (fun t => { t with status := closed })) k =
      if k = id then some { tk with status := closed }
      else storeLookup s.tickets k := by
    intro k
    rw [storeLookup_storeUpdate]
    by_cases hk : k = id
    · subst hk
      rw [if_pos rfl, if_pos rfl, hl]
      rfl
    · rw [if_neg hk, if_neg hk]
  cases hst : tk.status with
  | closed => exact absurd hst hnc
  | pending =>
    obtain ⟨a, ha, hmem⟩ := h.pendLoc id tk hl hst
    rw [close_core_eq_assigned_mem s id tk a ha hmem]
    obtain ⟨hnq, hnw, hcnt1⟩ := Inv0.wl_excl s h a id hmem
    refine ⟨?_, ?_, ?_, ?_, ?_⟩
    · intro b tid htid
      rw [update_wt_wl, Workloads.get_set] at htid
      rw [update_wt_tickets]
      rw [hlook]
      by_cases hb : b = a
      · subst hb
        rw [if_pos rfl] at htid
        have htid' : tid ∈ s.agent_tickets.get b :=
          ((s.agent_tickets.get b).erase_sublist id).mem htid
        have hne : tid ≠ id := by
          intro hEq
          subst hEq
          have he : ((s.agent_tickets.get b).erase tid).count tid =
              (s.agent_tickets.get b).count tid - 1 := List.count_erase_self tid _
          have := List.count_pos_iff.mpr htid
          omega
        rw [if_neg hne]
        exact h.wl b tid htid'
      · rw [if_neg hb] at htid
        have hne : tid ≠ id := fun hEq => (hnw b hb) (hEq ▸ htid)
        rw [if_neg hne]
        exact h.wl b tid htid
    · intro σ tid htid
      rw [getQ_update_wt] at htid
      rw [update_wt_tickets, hlook]
      have hne : tid ≠ id := fun hEq => (hnq σ) (hEq ▸ htid)
      rw [if_neg hne]
      exact h.qu σ tid htid
    · intro tid tk₁ hl₁ hop
      rw [update_wt_tickets, hlook] at hl₁
      rw [getQ_update_wt]
      by_cases hne : tid = id
      · rw [if_pos hne] at hl₁
        cases hl₁
        cases hop
      · rw [if_neg hne] at hl₁
        exact h.openLoc tid tk₁ hl₁ hop
    · intro tid tk₁ hl₁ hp
      rw [update_wt_tickets, hlook] at hl₁
      rw [update_wt_wl]
      by_cases hne : tid = id
      · rw [if_pos hne] at hl₁
        cases hl₁
        cases hp
      · rw [if_neg hne] at hl₁
        obtain ⟨b, hab, hmem'⟩ := h.pendLoc tid tk₁ hl₁ hp
        refine ⟨b, hab, ?_⟩
        rw [Workloads.get_set]
        by_cases hb : b = a
        · subst hb
          rw [if_pos rfl]
          exact (List.mem_erase_of_ne hne).mpr hmem'
        · rw [if_neg hb]
          exact hmem'
    · intro y
      simp only [countIn_update_wt]
      have i2 := countIn_set_wl s a ((s.agent_tickets.get a).erase id) y
      have h0 := h.uniq y
      have i4 : ((s.agent_tickets.get a).erase id).count y ≤
          (s.agent_tickets.get a).count y := by
        by_cases hy : y = id
        · subst hy
          rw [List.count_erase_self]
          omega
        · rw [List.count_erase_of_ne hy]
      omega
  | statusOpen =>
    have hnwo : ∀ b, id ∉ s.agent_tickets.get b := by
      intro b hmem
      obtain ⟨tk₂, hl₂, hp₂, _⟩ := h.wl b id hmem
      rw [hl] at hl₂
      cases hl₂
      rw [hst] at hp₂
      cases hp₂
    have hstate : close_core s id tk =
        { s with
          tickets := storeUpdate s.tickets id
              (fun t => { t with status := closed }) } := by
      cases ha : tk.assigned_agent with
      | none => exact close_core_eq_unassigned s id tk ha
      | some b => exact close_core_eq_assigned_notmem s id tk b ha (hnwo b)
    rw [hstate]
    refine ⟨?_, ?_, ?_, ?_, ?_⟩
    · intro b tid htid
      rw [update_t_wl] at htid
      rw [update_t_tickets, hlook]
      have hne : tid ≠ id := fun hEq => (hnwo b) (hEq ▸ htid)
      rw [if_neg hne]
      exact h.wl b tid htid
    · intro σ tid htid
      rw [update_t_getQ] at htid
      rw [update_t_tickets, hlook]
      by_cases hne : tid = id
      · subst hne
        rw [if_pos rfl]
        obtain ⟨tk₂, hl₂, hsel₂, _⟩ := h.qu σ tid htid
        rw [hl] at hl₂
        cases hl₂
        refine ⟨{ tk with status := closed }, rfl, hsel₂, ?_⟩
        intro hcontra
        cases hcontra
      · rw [if_neg hne]
        exact h.qu σ tid htid
    · intro tid tk₁ hl₁ hop
      rw [update_t_tickets, hlook] at hl₁
      rw [update_t_getQ]
      by_cases hne : tid = id
      · rw [if_pos hne] at hl₁
        cases hl₁
        cases hop
      · rw [if_neg hne] at hl₁
        exact h.openLoc tid tk₁ hl₁ hop
    · intro tid tk₁ hl₁ hp
      rw [update_t_tickets, hlook] at hl₁
      rw [update_t_wl]
      by_cases hne : tid = id
      · rw [if_pos hne] at hl₁
        cases hl₁
        cases hp
      · rw [if_neg hne] at hl₁
        exact h.pendLoc tid tk₁ hl₁ hp
    · intro y
      simp only [countIn_update_t]
      exact h.uniq y

/-- `close_ticket` preserves the structural invariant. -/
theorem Inv0_close (s : TicketClassifier) (id : String) (h : Inv0 s) :
    Inv0 (s.close_ticket id).1 := by
  cases h1 : storeLookup s.tickets id with
  | none => rw [close_ticket_eq_notFound s id h1]; exact h
  | some tk =>
    by_cases h2 : tk.status = closed
    · rw [close_ticket_eq_alreadyClosed s id tk h1 h2]; exact h
    · rw [close_ticket_eq_closes s id tk h1 h2]
      exact Inv0_process_queues _ (Inv0_close_core s id tk h h1 h2)

theorem Inv0_init : Inv0 initState := by
  refine ⟨?_, ?_, ?_, ?_, ?_⟩
  · intro a tid htid
    cases a <;> cases htid
  · intro σ tid htid
    cases σ <;> cases htid
  · intro tid tk hl _
    simp [initState, storeLookup] at hl
  · intro tid tk hl _
    simp [initState, storeLookup] at hl
  · intro y
    simp [countIn, initState, getQ, Workloads.get]

theorem Inv0_applyOp (s : TicketClassifier) (op : Op) (h : Inv0 s)
    (hok : OpFresh s op) : Inv0 (applyOp s op) := by
  cases op with
  | create id p t nn => exact Inv0_create s id p t nn h hok
  | close id => exact Inv0_close s id h
  | drain => exact Inv0_process_queues s h

end TicketClassifier

/-- Every state reachable with pairwise-distinct created ids satisfies the
structural invariant. -/
theorem reachableD_Inv0 (s : TicketClassifier) (h : ReachableD s) : Inv0 s := by
  induction h with
  | init => exact TicketClassifier.Inv0_init
  | step s' op hR hok ih => exact TicketClassifier.Inv0_applyOp s' op ih hok

/-- C4: in every reachable state whose created ids were pairwise distinct,
every non-closed ticket is held in exactly one place: its id occurs exactly
once across the three workloads and three queues; an open ticket sits in
the queue of its priority and a pending ticket in the workload of its
assigned agent. -/
theorem C4_nonclosed_ticket_in_exactly_one_place (s : TicketClassifier)
    (h : ReachableD s) (tid : String) (tk : Ticket)
    (hl : storeLookup s.tickets tid = some tk) (hnc : tk.status ≠ closed) :
    countIn s tid = 1 ∧
    (tk.status = statusOpen → tid ∈ getQ s (qselOf tk.priority)) ∧
    (tk.status = pending → ∃ a, tk.assigned_agent = some a ∧
      tid ∈ s.agent_tickets.get a) := by
  have hI := reachableD_Inv0 s h
  have h1 := hI.uniq tid
  cases hst : tk.status with
  | closed => exact absurd hst hnc
  | statusOpen =>
    have hloc := hI.openLoc tid tk hl hst
    have hpos : 0 < (getQ s (qselOf tk.priority)).count tid :=
      List.count_pos_iff.mpr hloc
    have hle := TicketClassifier.count_q_le_countIn s (qselOf tk.priority) tid
    refine ⟨by omega, fun _ => hloc, fun hp => ?_⟩
    exact absurd hp (by decide)
  | pending =>
    obtain ⟨a, ha, hmem⟩ := hI.pendLoc tid tk hl hst
    have hpos : 0 < (s.agent_tickets.get a).count tid :=
      List.count_pos_iff.mpr hmem
    have hle := TicketClassifier.count_wl_le_countIn s a tid
    refine ⟨by omega, fun hop => ?_, fun _ => ⟨a, ha, hmem⟩⟩
    exact absurd hop (by decide)

/-- Two tickets created with distinct ids from the initial state. -/
def c4State : TicketClassifier :=
  applyOp (applyOp initState (Op.create "W1" high software none))
    (Op.create "W2" high hardware none)

/-- The stored ticket for W1 in `c4State`. -/
def c4tk : Ticket :=
  { id := "W1", priority := high, ticket_type := software, status := pending
    assigned_agent := some agent1
    assigned_agent_id := some "692479b918668dee67209282" }

/-- Witness for C4 at a concrete reachable state. -/
theorem C4_nonclosed_ticket_in_exactly_one_place_witness :
    countIn c4State "W1" = 1 ∧
    (c4tk.status = statusOpen → "W1" ∈ getQ c4State (qselOf c4tk.priority)) ∧
    (c4tk.status = pending → ∃ a, c4tk.assigned_agent = some a ∧
      "W1" ∈ c4State.agent_tickets.get a) :=
  C4_nonclosed_ticket_in_exactly_one_place c4State
    (ReachableD.step _ _ (ReachableD.step _ _ ReachableD.init
        (by simp only [OpFresh]; decide))
      (by simp only [OpFresh]; decide))
    "W1" c4tk (by decide) (by decide)

/-! ## Claim C7: closing an assigned ticket only frees its own agent -/

namespace TicketClassifier

/-- `storeSet` at a different key leaves a ticket's priority/type alone. -/
theorem storePT_storeSet_ne (m : List (String × Ticket)) (id k : String)
    (v : Ticket) (h : k ≠ id) :
    storePT (storeSet m id v) k = storePT m k := by
  simp only [storePT, storeLookup_storeSet, if_neg h]

/-- The status-closing update of `close_core` leaves every ticket's
priority/type alone. -/
theorem storePT_storeUpdate_status (m : List (String × Ticket)) (id k : String) :
    storePT (storeUpdate m id (fun t => { t with status := closed })) k =
      storePT m k := by
  simp only [storePT, storeLookup_storeUpdate]
  by_cases hk : k = id
  · subst hk
    rw [if_pos rfl]
    cases storeLookup m k <;> rfl
  · rw [if_neg hk]

/-- `close_core` always performs exactly the status-closing store update. -/
theorem close_core_tickets (s : TicketClassifier) (id : String) (tk : Ticket) :
    (close_core s id tk).tickets =
      storeUpdate s.tickets id (fun t => { t with status := closed }) := by
  cases h : tk.assigned_agent with
  | none => rw [close_core_eq_unassigned s id tk h]
  | some a =>
    by_cases hm : id ∈ s.agent_tickets.get a
    · rw [close_core_eq_assigned_mem s id tk a h hm]
    · rw [close_core_eq_assigned_notmem s id tk a h hm]

theorem close_core_storePT (s : TicketClassifier) (id : String) (tk : Ticket)
    (k : String) :
    storePT (close_core s id tk).tickets k = storePT s.tickets k := by
  rw [close_core_tickets]
  exact storePT_storeUpdate_status s.tickets id k

/-- `close_core` never touches the three priority queues. -/
theorem close_core_getQ (s : TicketClassifier) (id : String) (tk : Ticket)
    (σ : QSel) : getQ (close_core s id tk) σ = getQ s σ := by
  cases h : tk.assigned_agent with
  | none => rw [close_core_eq_unassigned s id tk h]; cases σ <;> rfl
  | some a =>
    by_cases hm : id ∈ s.agent_tickets.get a
    · rw [close_core_eq_assigned_mem s id tk a h hm]; cases σ <;> rfl
    · rw [close_core_eq_assigned_notmem s id tk a h hm]; cases σ <;> rfl

/-- Every queued id is currently unassignable: `_find_available_agent`
returns `none` for its stored priority and type.  This is the key
stability property behind the frame effect of `close_ticket`: a drain
leaves an id in place only when no agent was available and workloads never
shrink outside `close_ticket` itself. -/
def JQ (s : TicketClassifier) : Prop :=
  ∀ σ : QSel, ∀ tid ∈ getQ s σ, ∀ p t,
    storePT s.tickets tid = some (p, t) → s.find_available_agent p t = none

/-- Each element of the processed queue is evaluated once: it either ends
up in the removal list, or `_find_available_agent` said `none` when it was
visited, hence still says `none` at the end of the pass (loads only grow). -/
theorem foldl_drainStep_leftover (q : List String) :
    ∀ (s0 : TicketClassifier) (r0 : List String) (n0 : List AssignEntry)
      (x : String), x ∈ q → ∀ p t, storePT s0.tickets x = some (p, t) →
      x ∈ (q.foldl drainStep (s0, r0, n0)).2.1 ∨
        (q.foldl drainStep (s0, r0, n0)).1.find_available_agent p t = none := by
  induction q with
  | nil =>
    intro s0 r0 n0 x hx
    cases hx
  | cons y q ih =>
    intro s0 r0 n0 x hx p t hpt
    rw [List.foldl_cons]
    rcases List.mem_cons.mp hx with hxy | hxq
    · subst hxy
      cases h1 : storeLookup s0.tickets x with
      | none =>
        exfalso
        simp only [storePT, h1, Option.map_none'] at hpt
        cases hpt
      | some tk =>
        have hptk : tk.priority = p ∧ tk.ticket_type = t := by
          simp only [storePT, h1, Option.map_some', Option.some.injEq,
            Prod.mk.injEq] at hpt
          exact hpt
        cases h2 : s0.find_available_agent tk.priority tk.ticket_type with
        | some a =>
          rw [drainStep_eq_assign s0 r0 n0 x tk a h1 h2]
          left
          obtain ⟨Δ, hr, -, -⟩ := foldl_drainStep_acc q _ (r0 ++ [x])
            (n0 ++ [⟨x, a, AGENT_IDS a⟩])
          rw [hr]
          simp
        | none =>
          rw [drainStep_eq_stuck s0 r0 n0 x tk h1 h2]
          right
          refine find_none_mono s0 _ p t
            (fun b => foldl_drainStep_load_le q (s0, r0, n0) b) ?_
          rw [← hptk.1, ← hptk.2]
          exact h2
    · have hPT1 := drainStep_storePT (s0, r0, n0) y x
      exact ih (drainStep (s0, r0, n0) y).1 (drainStep (s0, r0, n0) y).2.1
        (drainStep (s0, r0, n0) y).2.2 x hxq p t (by rw [hPT1]; exact hpt)

theorem process_one_getQ_ne (σ σ' : QSel) (h : σ' ≠ σ)
    (acc : TicketClassifier × List AssignEntry) :
    getQ (process_one σ acc).1 σ' = getQ acc.1 σ' := by
  obtain ⟨s, n⟩ := acc
  rw [process_one_state_eq, getQ_setQ, if_neg h, foldl_drainStep_queues]

theorem process_one_load_mono (σ : QSel) (acc : TicketClassifier × List AssignEntry)
    (a : AgentName) :
    acc.1.get_agent_load a ≤ (process_one σ acc).1.get_agent_load a := by
  obtain ⟨s, n⟩ := acc
  rw [process_one_state_eq, setQ_load]
  exact foldl_drainStep_load_le (getQ s σ) (s, ([], [])) a

/-- After one queue pass, each id still in that queue is unassignable. -/
theorem process_one_jq_self (σ : QSel) (acc : TicketClassifier × List AssignEntry)
    (hnd : (getQ acc.1 σ).Nodup) (x : String)
    (hx : x ∈ getQ (process_one σ acc).1 σ) (p : Priority) (t : TicketType)
    (hpt : storePT acc.1.tickets x = some (p, t)) :
    (process_one σ acc).1.find_available_agent p t = none := by
  obtain ⟨s, n⟩ := acc
  rw [process_one_state_eq] at hx ⊢
  rw [getQ_setQ_same, foldl_erase_eq_diff] at hx
  rw [List.Nodup.diff_eq_filter hnd] at hx
  have hxq : x ∈ getQ s σ := (List.mem_filter.mp hx).1
  have hxnr : x ∉ ((getQ s σ).foldl drainStep (s, ([], []))).2.1 := by
    have h2 := (List.mem_filter.mp hx).2
    simpa using h2
  rcases foldl_drainStep_leftover (getQ s σ) s [] [] x hxq p t hpt with hmem | hnone
  · exact absurd hmem hxnr
  · rw [find_eq_of_workloads_eq _ _ p t (setQ_agent_tickets _ σ _)]
    exact hnone

/-- A full drain re-establishes `JQ` from scratch: every id left in any
queue was visited by its pass and found unassignable, and later passes only
grow the workloads. -/
theorem process_queues_jq (s : TicketClassifier)
    (hnd : ∀ σ, (getQ s σ).Nodup) : JQ (process_queues s).1 := by
  intro σ x hx p t hpt
  have hPT32 := process_one_storePT QSel.qlow
    (process_one QSel.qmed (process_one QSel.qhigh (s, []))) x
  have hPT21 := process_one_storePT QSel.qmed (process_one QSel.qhigh (s, [])) x
  have hPT10 := process_one_storePT QSel.qhigh (s, []) x
  cases σ with
  | qlow =>
    refine process_one_jq_self QSel.qlow
      (process_one QSel.qmed (process_one QSel.qhigh (s, []))) ?_ x hx p t ?_
    · rw [process_one_getQ_ne QSel.qmed QSel.qlow (by decide),
        process_one_getQ_ne QSel.qhigh QSel.qlow (by decide)]
      exact hnd QSel.qlow
    · have hpt1 : storePT (process_one QSel.qlow (process_one QSel.qmed
          (process_one QSel.qhigh (s, [])))).1.tickets x = some (p, t) := hpt
      rw [hPT32] at hpt1
      exact hpt1
  | qmed =>
    have hfind2 : (process_one QSel.qmed
        (process_one QSel.qhigh (s, []))).1.find_available_agent p t = none := by
      refine process_one_jq_self QSel.qmed (process_one QSel.qhigh (s, [])) ?_ x ?_ p t ?_
      · rw [process_one_getQ_ne QSel.qhigh QSel.qmed (by decide)]
        exact hnd QSel.qmed
      · have hx1 : x ∈ getQ (process_one QSel.qlow (process_one QSel.qmed
            (process_one QSel.qhigh (s, [])))).1 QSel.qmed := hx
        rwa [process_one_getQ_ne QSel.qlow QSel.qmed (by decide)] at hx1
      · have hpt1 : storePT (process_one QSel.qlow (process_one QSel.qmed
            (process_one QSel.qhigh (s, [])))).1.tickets x = some (p, t) := hpt
        rwa [hPT32, hPT21] at hpt1
    exact find_none_mono _ _ p t
      (fun b => process_one_load_mono QSel.qlow
        (process_one QSel.qmed (process_one QSel.qhigh (s, []))) b) hfind2
  | qhigh =>
    have hfind1 : (process_one QSel.qhigh (s, [])).1.find_available_agent p t
        = none := by
      refine process_one_jq_self QSel.qhigh (s, []) (hnd QSel.qhigh) x ?_ p t ?_
      · have hx1 : x ∈ getQ (process_one QSel.qlow (process_one QSel.qmed
            (process_one QSel.qhigh (s, [])))).1 QSel.qhigh := hx
        rwa [process_one_getQ_ne QSel.qlow QSel.qhigh (by decide),
          process_one_getQ_ne QSel.qmed QSel.qhigh (by decide)] at hx1
      · have hpt1 : storePT (process_one QSel.qlow (process_one QSel.qmed
            (process_one QSel.qhigh (s, [])))).1.tickets x = some (p, t) := hpt
        rwa [hPT32, hPT21, hPT10] at hpt1
    refine find_none_mono _ _ p t (fun b => ?_) hfind1
    exact le_trans
      (process_one_load_mono QSel.qmed (process_one QSel.qhigh (s, [])) b)
      (process_one_load_mono QSel.qlow
        (process_one QSel.qmed (process_one QSel.qhigh (s, []))) b)

end TicketClassifier

namespace TicketClassifier

/-- `create_ticket` with a fresh id preserves the queued-unassignable
property: an assignment only grows workloads, and a newly queued ticket is
queued precisely because no agent was available. -/
theorem jq_create (s : TicketClassifier) (id : String) (p : Priority)
    (t : TicketType) (nn : Option (String × ℚ)) (hI : Inv0 s) (hJ : JQ s)
    (hfresh : storeLookup s.tickets id = none) :
    JQ (s.create_ticket id p t nn).1 := by
  obtain ⟨hidw, hidq, -⟩ := Inv0.fresh_not_held s hI id hfresh
  cases hf : s.find_available_agent p t with
  | some a =>
    rw [create_ticket_eq_assigned s id p t nn a hf]
    intro σ x hx q u hpt
    rw [getQ_update_wt] at hx
    have hxid : x ≠ id := fun hEq => (hidq σ) (hEq ▸ hx)
    rw [update_wt_tickets, storePT_storeSet_ne _ _ _ _ hxid,
      storePT_storeSet_ne _ _ _ _ hxid] at hpt
    refine find_none_mono s _ q u (fun b => ?_) (hJ σ x hx q u hpt)
    simp only [get_agent_load, update_wt_wl, Workloads.get_set]
    by_cases hb : b = a
    · rw [if_pos hb, hb]
      simp [get_agent_load]
    · rw [if_neg hb]
  | none =>
    rw [create_ticket_eq_queued s id p t nn hf]
    intro σ x hx q u hpt
    have hfind_eq : (setQ { s with
          tickets := storeSet s.tickets id (newTicket id p t nn) }
        (qselOf p) (getQ s (qselOf p) ++ [id])).find_available_agent q u =
        s.find_available_agent q u :=
      find_eq_of_workloads_eq _ s q u (by rw [setQ_agent_tickets])
    rw [hfind_eq]
    rw [setQ_tickets, update_t_tickets] at hpt
    by_cases hσ : σ = qselOf p
    · subst hσ
      rw [getQ_setQ_same] at hx
      rcases List.mem_append.mp hx with hold | hnew
      · rw [update_t_getQ] at hold
        have hxid : x ≠ id := fun hEq => (hidq _) (hEq ▸ hold)
        rw [storePT_storeSet_ne _ _ _ _ hxid] at hpt
        exact hJ _ x hold q u hpt
      · have hxid : x = id := List.mem_singleton.mp hnew
        subst hxid
        simp only [storePT, storeLookup_storeSet, if_pos rfl, ite_true,
          Option.map_some', Option.some.injEq, Prod.mk.injEq, newTicket] at hpt
        obtain ⟨hp1, ht1⟩ := hpt
        subst hp1
        subst ht1
        exact hf
    · rw [getQ_setQ_ne _ _ _ _ hσ, update_t_getQ] at hx
      have hxid : x ≠ id := fun hEq => (hidq σ) (hEq ▸ hx)
      rw [storePT_storeSet_ne _ _ _ _ hxid] at hpt
      exact hJ σ x hx q u hpt

/-- `close_ticket` preserves the queued-unassignable property (the final
drain re-establishes it whatever the interim states looked like). -/
theorem jq_close (s : TicketClassifier) (id : String) (hI : Inv0 s)
    (hJ : JQ s) : JQ (s.close_ticket id).1 := by
  cases h1 : storeLookup s.tickets id with
  | none =>
    rw [close_ticket_eq_notFound s id h1]
    exact hJ
  | some tk =>
    by_cases h2 : tk.status = closed
    · rw [close_ticket_eq_alreadyClosed s id tk h1 h2]
      exact hJ
    · rw [close_ticket_eq_closes s id tk h1 h2]
      refine process_queues_jq _ (fun σ => ?_)
      rw [close_core_getQ]
      exact Inv0.queue_nodup s hI σ

theorem jq_init : JQ initState := by
  intro σ x hx
  cases σ <;> cases hx

end TicketClassifier

/-- Every state reachable with pairwise-distinct created ids satisfies the
queued-unassignable property. -/
theorem reachableD_JQ (s : TicketClassifier) (h : ReachableD s) : JQ s := by
  induction h with
  | init => exact TicketClassifier.jq_init
  | step s' op hR hok ih =>
    have hI := reachableD_Inv0 s' hR
    cases op with
    | create id p t nn => exact TicketClassifier.jq_create s' id p t nn hI ih hok
    | close id => exact TicketClassifier.jq_close s' id hI ih
    | drain =>
      exact TicketClassifier.process_queues_jq s'
        (fun σ => TicketClassifier.Inv0.queue_nodup s' hI σ)

/-! ## Claim C5: drain visits high → medium → low in insertion order,
evaluating every queued ticket exactly once, with no head-of-line
blocking -/

/-- Each element of a nodup queue is either among the assigned ids exactly
once (and removed from the queue) or not assigned at all (and left in
place). -/
theorem assigned_once_or_left (q ids finalq : List String) (hnd : q.Nodup)
    (hs : List.Sublist ids q) (hf : finalq = q.filter (fun y => y ∉ ids))
    (y : String) (hy : y ∈ q) :
    (ids.count y = 1 ∧ y ∉ finalq) ∨ (y ∉ ids ∧ y ∈ finalq) := by
  by_cases hmem : y ∈ ids
  · refine Or.inl ⟨?_, ?_⟩
    · have h1 : ids.Nodup := hnd.sublist hs
      have h2 := List.count_pos_iff.mpr hmem
      have h3 := List.nodup_iff_count_le_one.mp h1 y
      omega
    · rw [hf]
      intro hcontra
      have h4 := (List.mem_filter.mp hcontra).2
      simp only [decide_eq_true_eq] at h4
      exact h4 hmem
  · refine Or.inr ⟨hmem, ?_⟩
    rw [hf]
    refine List.mem_filter.mpr ⟨hy, ?_⟩
    simpa using hmem

/-- The full drain contract of C5 at a state `s`: the newly-assigned list
decomposes as the high-tier assignments, then medium, then low; within
each tier the assigned ids form an in-order subsequence of that queue;
each queue afterwards holds exactly its non-assigned ids in their original
order; every queued ticket is evaluated exactly once — it ends up either
assigned (its id appearing exactly once among that tier's assignments and
removed from the queue) or still queued; and there is no head-of-line
blocking: every id left in any queue is one for which
`_find_available_agent` returns `none` at the end of the drain, so no
assignable ticket anywhere (same or lower tier) was skipped over. -/
def DrainSpec (s : TicketClassifier) : Prop :=
  ∃ naH naM naL : List TicketClassifier.AssignEntry,
    (TicketClassifier.process_queues s).2 = naH ++ naM ++ naL ∧
    List.Sublist (naH.map TicketClassifier.AssignEntry.ticket_id) s.high_priority_queue ∧
    List.Sublist (naM.map TicketClassifier.AssignEntry.ticket_id) s.medium_priority_queue ∧
    List.Sublist (naL.map TicketClassifier.AssignEntry.ticket_id) s.low_priority_queue ∧
    (TicketClassifier.process_queues s).1.high_priority_queue =
      s.high_priority_queue.filter
        (fun y => y ∉ naH.map TicketClassifier.AssignEntry.ticket_id) ∧
    (TicketClassifier.process_queues s).1.medium_priority_queue =
      s.medium_priority_queue.filter
        (fun y => y ∉ naM.map TicketClassifier.AssignEntry.ticket_id) ∧
    (TicketClassifier.process_queues s).1.low_priority_queue =
      s.low_priority_queue.filter
        (fun y => y ∉ naL.map TicketClassifier.AssignEntry.ticket_id) ∧
    (∀ y ∈ s.high_priority_queue,
      ((naH.map TicketClassifier.AssignEntry.ticket_id).count y = 1 ∧
        y ∉ (TicketClassifier.process_queues s).1.high_priority_queue) ∨
      (y ∉ naH.map TicketClassifier.AssignEntry.ticket_id ∧
        y ∈ (TicketClassifier.process_queues s).1.high_priority_queue)) ∧
    (∀ y ∈ s.medium_priority_queue,
      ((naM.map TicketClassifier.AssignEntry.ticket_id).count y = 1 ∧
        y ∉ (TicketClassifier.process_queues s).1.medium_priority_queue) ∨
      (y ∉ naM.map TicketClassifier.AssignEntry.ticket_id ∧
        y ∈ (TicketClassifier.process_queues s).1.medium_priority_queue)) ∧
    (∀ y ∈ s.low_priority_queue,
      ((naL.map TicketClassifier.AssignEntry.ticket_id).count y = 1 ∧
        y ∉ (TicketClassifier.process_queues s).1.low_priority_queue) ∨
      (y ∉ naL.map TicketClassifier.AssignEntry.ticket_id ∧
        y ∈ (TicketClassifier.process_queues s).1.low_priority_queue)) ∧
    (∀ σ : TicketClassifier.QSel,
      ∀ tid ∈ TicketClassifier.getQ (TicketClassifier.process_queues s).1 σ,
      ∀ p t,
        storePT (TicketClassifier.process_queues s).1.tickets tid = some (p, t) →
        (TicketClassifier.process_queues s).1.find_available_agent p t = none)

/-- C5: `_process_queues` drains the high queue, then medium, then low,
walking each queue in insertion order and evaluating every queued ticket
exactly once per invocation: each queued id is either assigned exactly
once (and removed) or left in place, and an id is left in place only when
no agent is available for it even at the end of the drain — so an
unassignable ticket never blocks a later ticket in the same or a lower
tier from being assigned. -/
theorem C5_drain_high_medium_low_in_insertion_order (s : TicketClassifier)
    (hH : s.high_priority_queue.Nodup) (hM : s.medium_priority_queue.Nodup)
    (hL : s.low_priority_queue.Nodup) : DrainSpec s := by
  obtain ⟨ΔH, hn1, hs1, hf1, ho1⟩ :=
    TicketClassifier.process_one_drain_spec qhigh (s, []) hH
  obtain ⟨ΔM, hn2, hs2, hf2, ho2⟩ :=
    TicketClassifier.process_one_drain_spec qmed
      (TicketClassifier.process_one qhigh (s, []))
      (by rw [ho1 qmed (by decide)]; exact hM)
  obtain ⟨ΔL, hn3, hs3, hf3, ho3⟩ :=
    TicketClassifier.process_one_drain_spec qlow
      (TicketClassifier.process_one qmed (TicketClassifier.process_one qhigh (s, [])))
      (by rw [ho2 qlow (by decide), ho1 qlow (by decide)]; exact hL)
  have hs2' : List.Sublist (ΔM.map TicketClassifier.AssignEntry.ticket_id)
      s.medium_priority_queue := by
    rw [ho1 qmed (by decide)] at hs2
    exact hs2
  have hs3' : List.Sublist (ΔL.map TicketClassifier.AssignEntry.ticket_id)
      s.low_priority_queue := by
    rw [ho2 qlow (by decide), ho1 qlow (by decide)] at hs3
    exact hs3
  have hFH : (TicketClassifier.process_queues s).1.high_priority_queue =
      s.high_priority_queue.filter
        (fun y => y ∉ ΔH.map TicketClassifier.AssignEntry.ticket_id) := by
    show getQ (TicketClassifier.process_one qlow _).1 qhigh = _
    rw [ho3 qhigh (by decide), ho2 qhigh (by decide), hf1]
    rfl
  have hFM : (TicketClassifier.process_queues s).1.medium_priority_queue =
      s.medium_priority_queue.filter
        (fun y => y ∉ ΔM.map TicketClassifier.AssignEntry.ticket_id) := by
    show getQ (TicketClassifier.process_one qlow _).1 qmed = _
    rw [ho3 qmed (by decide), hf2, ho1 qmed (by decide)]
    rfl
  have hFL : (TicketClassifier.process_queues s).1.low_priority_queue =
      s.low_priority_queue.filter
        (fun y => y ∉ ΔL.map TicketClassifier.AssignEntry.ticket_id) := by
    show getQ (TicketClassifier.process_one qlow _).1 qlow = _
    rw [hf3, ho2 qlow (by decide), ho1 qlow (by decide)]
    rfl
  refine ⟨ΔH, ΔM, ΔL, ?_, hs1, hs2', hs3', hFH, hFM, hFL, ?_, ?_, ?_, ?_⟩
  · show (TicketClassifier.process_one qlow _).2 = _
    rw [hn3, hn2, hn1]
    simp [List.append_assoc]
  · exact fun y hy => assigned_once_or_left _ _ _ hH hs1 hFH y hy
  · exact fun y hy => assigned_once_or_left _ _ _ hM hs2' hFM y hy
  · exact fun y hy => assigned_once_or_left _ _ _ hL hs3' hFL y hy
  · exact TicketClassifier.process_queues_jq s (fun σ => by
      cases σ with
      | qhigh => exact hH
      | qmed => exact hM
      | qlow => exact hL)

/-- Witness for C5 at a concrete state with one queued high ticket. -/
theorem C5_drain_high_medium_low_in_insertion_order_witness :
    DrainSpec c6State :=
  C5_drain_high_medium_low_in_insertion_order c6State
    (by decide) (by decide) (by decide)

namespace TicketClassifier

/-- If every processed id was unassignable in the reference state `base`
and the running state differs from `base` only on agent `X`'s workload,
then the whole drain pass appends only to `X`'s workload (by
`find_only_freed`, no other agent can ever be returned). -/
theorem foldl_drainStep_onlyX (q : List String) (base : TicketClassifier)
    (X : AgentName) :
    ∀ (s0 : TicketClassifier) (r0 : List String) (n0 : List AssignEntry),
      (∀ x ∈ q, ∀ p t, storePT s0.tickets x = some (p, t) →
        base.find_available_agent p t = none) →
      (∀ a, a ≠ X → s0.agent_tickets.get a = base.agent_tickets.get a) →
      (∀ a, a ≠ X →
        (q.foldl drainStep (s0, r0, n0)).1.agent_tickets.get a =
          base.agent_tickets.get a) ∧
      ∃ app, (q.foldl drainStep (s0, r0, n0)).1.agent_tickets.get X =
          s0.agent_tickets.get X ++ app ∧ ∀ y ∈ app, y ∈ q := by
  induction q with
  | nil =>
    intro s0 r0 n0 _ hother
    exact ⟨hother, [], by simp, fun y hy => absurd hy (List.not_mem_nil y)⟩
  | cons z q ih =>
    intro s0 r0 n0 hfind hother
    rw [List.foldl_cons]
    cases h1 : storeLookup s0.tickets z with
    | none =>
      rw [drainStep_eq_missing s0 r0 n0 z h1]
      obtain ⟨hA, app, hB, hC⟩ := ih s0 r0 n0
        (fun x hx => hfind x (List.mem_cons_of_mem z hx)) hother
      exact ⟨hA, app, hB, fun y hy => List.mem_cons_of_mem z (hC y hy)⟩
    | some tk =>
      cases h2 : s0.find_available_agent tk.priority tk.ticket_type with
      | none =>
        rw [drainStep_eq_stuck s0 r0 n0 z tk h1 h2]
        obtain ⟨hA, app, hB, hC⟩ := ih s0 r0 n0
          (fun x hx => hfind x (List.mem_cons_of_mem z hx)) hother
        exact ⟨hA, app, hB, fun y hy => List.mem_cons_of_mem z (hC y hy)⟩
      | some a =>
        have hptz : storePT s0.tickets z = some (tk.priority, tk.ticket_type) := by
          simp only [storePT, h1, Option.map_some']
        have hbase : base.find_available_agent tk.priority tk.ticket_type = none :=
          hfind z (List.mem_cons_self z q) tk.priority tk.ticket_type hptz
        have haX : a = X := by
          rcases find_only_freed base s0 X tk.priority tk.ticket_type
              (fun b hb => by
                unfold get_agent_load
                rw [hother b hb]) hbase with hc | hsome
          · rw [h2] at hc
            cases hc
          · rw [h2] at hsome
            exact Option.some.inj hsome
        rw [haX] at h2
        rw [drainStep_eq_assign s0 r0 n0 z tk X h1 h2]
        have hPTpres : ∀ k, storePT ({ s0 with
            tickets := storeUpdate s0.tickets z (fun t =>
              { t with
                assigned_agent := some X
                assigned_agent_id := some (AGENT_IDS X)
                status := pending })
            agent_tickets :=
              s0.agent_tickets.set X (s0.agent_tickets.get X ++ [z]) } :
              TicketClassifier).tickets k = storePT s0.tickets k := by
          intro k
          have hk := drainStep_storePT (s0, r0, n0) z k
          rw [drainStep_eq_assign s0 r0 n0 z tk X h1 h2] at hk
          exact hk
        have hfind' : ∀ x ∈ q, ∀ p t,
            storePT ({ s0 with
              tickets := storeUpdate s0.tickets z (fun t =>
                { t with
                  assigned_agent := some X
                  assigned_agent_id := some (AGENT_IDS X)
                  status := pending })
              agent_tickets :=
                s0.agent_tickets.set X (s0.agent_tickets.get X ++ [z]) } :
                TicketClassifier).tickets x = some (p, t) →
            base.find_available_agent p t = none := by
          intro x hx p t hpt
          refine hfind x (List.mem_cons_of_mem z hx) p t ?_
          rw [← hPTpres x]
          exact hpt
        have hother' : ∀ b, b ≠ X →
            ({ s0 with
              tickets := storeUpdate s0.tickets z (fun t =>
                { t with
                  assigned_agent := some X
                  assigned_agent_id := some (AGENT_IDS X)
                  status := pending })
              agent_tickets :=
                s0.agent_tickets.set X (s0.agent_tickets.get X ++ [z]) } :
                TicketClassifier).agent_tickets.get b =
              base.agent_tickets.get b := by
          intro b hb
          rw [update_wt_wl, Workloads.get_set, if_neg hb]
          exact hother b hb
        obtain ⟨hA, app, hB, hC⟩ := ih _ (r0 ++ [z])
          (n0 ++ [⟨z, X, AGENT_IDS X⟩]) hfind' hother'
        refine ⟨hA, z :: app, ?_, ?_⟩
        · rw [hB, update_wt_wl, Workloads.get_set_self]
          simp
        · intro y hy
          rcases List.mem_cons.mp hy with hyz | hya
          · rw [hyz]
            exact List.mem_cons_self z q
          · exact List.mem_cons_of_mem z (hC y hya)

/-- One queue pass appends only to `X`'s workload when every queued id was
unassignable in the reference state `base`. -/
theorem process_one_onlyX (σ : QSel) (acc : TicketClassifier × List AssignEntry)
    (base : TicketClassifier) (X : AgentName)
    (hfind : ∀ x ∈ getQ acc.1 σ, ∀ p t, storePT acc.1.tickets x = some (p, t) →
      base.find_available_agent p t = none)
    (hother : ∀ a, a ≠ X → acc.1.agent_tickets.get a = base.agent_tickets.get a) :
    (∀ a, a ≠ X → (process_one σ acc).1.agent_tickets.get a =
      base.agent_tickets.get a) ∧
    ∃ app, (process_one σ acc).1.agent_tickets.get X =
        acc.1.agent_tickets.get X ++ app ∧ ∀ y ∈ app, y ∈ getQ acc.1 σ := by
  obtain ⟨s, n⟩ := acc
  rw [process_one_state_eq]
  obtain ⟨hA, app, hB, hC⟩ :=
    foldl_drainStep_onlyX (getQ s σ) base X s [] [] hfind hother
  refine ⟨?_, app, ?_, hC⟩
  · intro a ha
    rw [setQ_agent_tickets]
    exact hA a ha
  · rw [setQ_agent_tickets]
    exact hB

/-- The full drain appends only to `X`'s workload when every queued id was
unassignable in the reference state `base` and the starting state differs
from `base` only on `X`'s workload. -/
theorem process_queues_onlyX (s₀ base : TicketClassifier) (X : AgentName)
    (hq : ∀ σ, getQ s₀ σ = getQ base σ)
    (hPT : ∀ k, storePT s₀.tickets k = storePT base.tickets k)
    (hJ : JQ base)
    (hother : ∀ a, a ≠ X → s₀.agent_tickets.get a = base.agent_tickets.get a) :
    (∀ a, a ≠ X → (process_queues s₀).1.agent_tickets.get a =
      base.agent_tickets.get a) ∧
    ∃ app, (process_queues s₀).1.agent_tickets.get X =
        s₀.agent_tickets.get X ++ app ∧
      ∀ y ∈ app, y ∈ getQ base QSel.qhigh ∨ y ∈ getQ base QSel.qmed ∨
        y ∈ getQ base QSel.qlow := by
  obtain ⟨hA1, app1, hB1, hC1⟩ := process_one_onlyX QSel.qhigh (s₀, []) base X
    (fun x hx p t hpt =>
      hJ QSel.qhigh x (by rw [← hq QSel.qhigh]; exact hx) p t
        (by rw [← hPT x]; exact hpt))
    hother
  obtain ⟨hA2, app2, hB2, hC2⟩ := process_one_onlyX QSel.qmed
    (process_one QSel.qhigh (s₀, [])) base X
    (fun x hx p t hpt => by
      rw [process_one_getQ_ne QSel.qhigh QSel.qmed (by decide)] at hx
      rw [process_one_storePT QSel.qhigh (s₀, []) x] at hpt
      exact hJ QSel.qmed x (by rw [← hq QSel.qmed]; exact hx) p t
        (by rw [← hPT x]; exact hpt))
    hA1
  obtain ⟨hA3, app3, hB3, hC3⟩ := process_one_onlyX QSel.qlow
    (process_one QSel.qmed (process_one QSel.qhigh (s₀, []))) base X
    (fun x hx p t hpt => by
      rw [process_one_getQ_ne QSel.qmed QSel.qlow (by decide),
        process_one_getQ_ne QSel.qhigh QSel.qlow (by decide)] at hx
      rw [process_one_storePT QSel.qmed (process_one QSel.qhigh (s₀, [])) x,
        process_one_storePT QSel.qhigh (s₀, []) x] at hpt
      exact hJ QSel.qlow x (by rw [← hq QSel.qlow]; exact hx) p t
        (by rw [← hPT x]; exact hpt))
    hA2
  refine ⟨hA3, app1 ++ app2 ++ app3, ?_, ?_⟩
  · show (process_one QSel.qlow (process_one QSel.qmed
      (process_one QSel.qhigh (s₀, [])))).1.agent_tickets.get X = _
    rw [hB3, hB2, hB1]
    simp [List.append_assoc]
  · intro y hy
    rcases List.mem_append.mp hy with hy12 | hy3
    · rcases List.mem_append.mp hy12 with hy1 | hy2
      · refine Or.inl ?_
        rw [← hq QSel.qhigh]
        exact hC1 y hy1
      · refine Or.inr (Or.inl ?_)
        have hmem := hC2 y hy2
        rw [process_one_getQ_ne QSel.qhigh QSel.qmed (by decide)] at hmem
        rw [← hq QSel.qmed]
        exact hmem
    · refine Or.inr (Or.inr ?_)
      have hmem := hC3 y hy3
      rw [process_one_getQ_ne QSel.qmed QSel.qlow (by decide),
        process_one_getQ_ne QSel.qhigh QSel.qlow (by decide)] at hmem
      rw [← hq QSel.qlow]
      exact hmem

end TicketClassifier

/-- C7: in a reachable state (with pairwise-distinct created ids), closing
a ticket that is assigned to agent `X` removes exactly that one ticket id
from exactly `X`'s workload list — the id occurs exactly once in `X`'s
list, the removal shortens it by one slot, the closed id is never
re-appended by the triggered drain — and the workload lists of every other
agent are unchanged by the whole closure (the drain can only assign queued
work to the freed agent `X`). -/
theorem C7_close_assigned_frees_exactly_one_slot (s : TicketClassifier)
    (h : ReachableD s) (tid : String) (tk : Ticket) (X : AgentName)
    (hl : storeLookup s.tickets tid = some tk)
    (hst : tk.status = pending) (hag : tk.assigned_agent = some X) :
    ∃ newly : List TicketClassifier.AssignEntry,
      (s.close_ticket tid).2 = CloseOutcome.closedNow (some X) newly ∧
      tid ∈ s.agent_tickets.get X ∧
      (s.agent_tickets.get X).count tid = 1 ∧
      (∀ Y, Y ≠ X → (s.close_ticket tid).1.agent_tickets.get Y =
        s.agent_tickets.get Y) ∧
      ∃ app, (s.close_ticket tid).1.agent_tickets.get X =
          (s.agent_tickets.get X).erase tid ++ app ∧
        tid ∉ app ∧
        ((s.agent_tickets.get X).erase tid).length =
          (s.agent_tickets.get X).length - 1 := by
  have hI := reachableD_Inv0 s h
  have hJ := reachableD_JQ s h
  have hnc : tk.status ≠ closed := by
    rw [hst]
    decide
  obtain ⟨a, ha, hmem⟩ := hI.pendLoc tid tk hl hst
  have hmemX : tid ∈ s.agent_tickets.get X := by
    have haX : a = X := by
      rw [ha] at hag
      exact Option.some.inj hag
    rwa [haX] at hmem
  obtain ⟨hnq, hnw, hcnt1⟩ := TicketClassifier.Inv0.wl_excl s hI X tid hmemX
  have hq₀ : ∀ σ, getQ (close_core s tid tk) σ = getQ s σ :=
    fun σ => close_core_getQ s tid tk σ
  have hPT₀ : ∀ k, storePT (close_core s tid tk).tickets k = storePT s.tickets k :=
    fun k => close_core_storePT s tid tk k
  have hother₀ : ∀ b, b ≠ X →
      (close_core s tid tk).agent_tickets.get b = s.agent_tickets.get b := by
    intro b hb
    rw [close_core_eq_assigned_mem s tid tk X hag hmemX, update_wt_wl,
      Workloads.get_set, if_neg hb]
  have hXwl : (close_core s tid tk).agent_tickets.get X =
      (s.agent_tickets.get X).erase tid := by
    rw [close_core_eq_assigned_mem s tid tk X hag hmemX, update_wt_wl,
      Workloads.get_set_self]
  obtain ⟨hA, app, hB, hC⟩ :=
    TicketClassifier.process_queues_onlyX (close_core s tid tk) s X hq₀ hPT₀ hJ hother₀
  refine ⟨(process_queues (close_core s tid tk)).2, ?_, hmemX, hcnt1, ?_, app,
    ?_, ?_, ?_⟩
  · rw [close_ticket_eq_closes s tid tk hl hnc, hag]
  · intro Y hY
    rw [close_ticket_eq_closes s tid tk hl hnc]
    exact hA Y hY
  · rw [close_ticket_eq_closes s tid tk hl hnc]
    show (process_queues (close_core s tid tk)).1.agent_tickets.get X = _
    rw [hB, hXwl]
  · intro hmemapp
    rcases hC tid hmemapp with hq1 | hq2 | hq3
    · exact hnq TicketClassifier.QSel.qhigh hq1
    · exact hnq TicketClassifier.QSel.qmed hq2
    · exact hnq TicketClassifier.QSel.qlow hq3
  · exact List.length_erase_of_mem hmemX

/-- A state holding one assigned pending ticket. -/
def c7State : TicketClassifier :=
  applyOp initState (Op.create "P1" high software none)

/-- The stored ticket for P1 in `c7State`. -/
def c7tk : Ticket :=
  { id := "P1", priority := high, ticket_type := software, status := pending
    assigned_agent := some agent1
    assigned_agent_id := some "692479b918668dee67209282" }

/-- Witness for C7 at a concrete reachable state. -/
theorem C7_close_assigned_frees_exactly_one_slot_witness :
    ∃ newly : List TicketClassifier.AssignEntry,
      (c7State.close_ticket "P1").2 = CloseOutcome.closedNow (some agent1) newly ∧
      "P1" ∈ c7State.agent_tickets.get agent1 ∧
      (c7State.agent_tickets.get agent1).count "P1" = 1 ∧
      (∀ Y, Y ≠ agent1 → (c7State.close_ticket "P1").1.agent_tickets.get Y =
        c7State.agent_tickets.get Y) ∧
      ∃ app, (c7State.close_ticket "P1").1.agent_tickets.get agent1 =
          (c7State.agent_tickets.get agent1).erase "P1" ++ app ∧
        "P1" ∉ app ∧
        ((c7State.agent_tickets.get agent1).erase "P1").length =
          (c7State.agent_tickets.get agent1).length - 1 :=
  C7_close_assigned_frees_exactly_one_slot c7State
    (ReachableD.step _ _ ReachableD.init (by simp only [OpFresh]; decide))
    "P1" c7tk agent1 (by decide) (by decide) (by decide)
